import Mathlib

/-!
Verification development for the bettime-server match lifecycle and
settlement engine.

This file gives a shallow embedding of the core of the source
(`src/models/matchModel.js` — found as `src/unnamed/part_005` —,
`src/controllers/gameController.js` and `src/services/simulationService.js`)
and proves properties of the embedded operations.

Embedding conventions:
* Money amounts are rationals (`ℚ`); the JavaScript `Number((x).toFixed(2))`
  normalisation is modelled by `toFixed2` (round to nearest hundredth,
  ties up), defined computably on `ℚ`.
* The `users` table is modelled as a total map `Nat → UserRec` (every id has
  a row); `UPDATE users SET balance = balance ± ? WHERE id = ?` becomes a
  pointwise function update.  The single `admin_balance` row (id 1) is the
  `adminBalance` field.
* `matches`, `bets`, `moves` and `balance_transactions` are lists of rows;
  SQL `INSERT` appends, `UPDATE ... WHERE id = ?` maps over the list, and
  `SELECT ... LIMIT 1` is `List.find?` (or an arg-min fold for
  `ORDER BY id ASC LIMIT 1`).  `AUTO_INCREMENT` ids come from the
  `nextMatchId` / `nextMoveId` counters.
* Timestamps, display-name columns and the free-form `meta` JSON column are
  omitted: no control flow of the embedded operations reads them.
* Each embedded operation is one SQL transaction of the source: a thrown
  error (`Except.error`) corresponds to a rollback, so the caller keeps the
  pre-call state.
* The service fee is computed by `getChargeForAmount`, which reads the
  externally configured `charge_rates` table; the embedding takes the
  charge function as a parameter `charge : ℚ → ℚ`.
-/

namespace Bettime

/-! ## Money: the `toFixed(2)` normalisation -/

/-- Round a rational to the nearest integer, ties upward: `⌊y + 1/2⌋`,
computed on the numerator/denominator so that the kernel can evaluate it
(the divisor `2 * den` is positive, so Euclidean division is floor division).
This is the idealised rounding of JavaScript `Number.prototype.toFixed`. -/
def jsRound (y : ℚ) : ℤ := (2 * y.num + (y.den : ℤ)) / (2 * (y.den : ℤ))

/-- `Number((x).toFixed(2))`: round to two decimal places. -/
def toFixed2 (x : ℚ) : ℚ := ((jsRound (100 * x) : ℤ) : ℚ) / 100

/-- An amount that is exactly representable with two decimal places. -/
def TwoDec (x : ℚ) : Prop := ∃ n : ℤ, x = (n : ℚ) / 100

theorem jsRound_intCast (n : ℤ) : jsRound (n : ℚ) = n := by
  unfold jsRound
  rw [Rat.num_intCast, Rat.den_intCast]
  have h : 2 * n + ((1 : ℕ) : ℤ) = 1 + n * 2 := by push_cast; ring
  have h2 : 2 * ((1 : ℕ) : ℤ) = 2 := by push_cast
  have h3 : (2 : ℤ) ≠ 0 := by norm_num
  rw [h, h2, Int.add_mul_ediv_right 1 n h3]
  rw [show (1 : ℤ) / 2 = 0 from rfl, zero_add]

theorem toFixed2_eq_self {x : ℚ} (h : TwoDec x) : toFixed2 x = x := by
  obtain ⟨n, rfl⟩ := h
  unfold toFixed2
  have h100 : (100 : ℚ) ≠ 0 := by norm_num
  rw [mul_div_cancel₀ (n : ℚ) h100, jsRound_intCast]

/-! ## Data model -/

/-- A row of the `users` table (columns the core reads: `balance`, `is_bot`). -/
structure UserRec where
  balance : ℚ
  is_bot : Bool
  deriving Repr, DecidableEq

/-- A row of the `matches` table. -/
structure MatchRow where
  id : Nat
  creator_id : Nat
  opponent_id : Option Nat
  board : List Char
  current_turn : Char
  status : String
  winner : Option String
  bet_amount : ℚ
  deriving Repr, DecidableEq

/-- A row of the `bets` table. -/
structure BetRow where
  match_id : Nat
  user_id : Nat
  amount : ℚ
  net_amount : ℚ
  fee_amount : ℚ
  deriving Repr, DecidableEq

/-- A row of the `moves` table. -/
structure MoveRow where
  id : Nat
  match_id : Nat
  user_id : Nat
  position : Nat
  symbol : Char
  deriving Repr, DecidableEq

/-- A row of the append-only `balance_transactions` audit log. -/
structure BalanceTx where
  user_id : Option Nat
  amount : ℚ
  type : String
  source : String
  reference_id : Option String
  status : String
  deriving Repr, DecidableEq

/-- The relational store: users/admin balances, matches, bets, moves and the
balance-transaction log, plus the auto-increment counters. -/
structure DBState where
  users : Nat → UserRec
  adminBalance : ℚ
  matchRows : List MatchRow
  bets : List BetRow
  moves : List MoveRow
  txLog : List BalanceTx
  nextMatchId : Nat
  nextMoveId : Nat

/-! ## Primitive store operations -/

/-- `UPDATE users SET balance = balance + delta WHERE id = uid`. -/
def adjustBalance (st : DBState) (uid : Nat) (delta : ℚ) : DBState :=
  { st with users := fun i =>
      if i = uid then { st.users i with balance := (st.users i).balance + delta }
      else st.users i }

/-- `UPDATE admin_balance SET balance = balance + delta WHERE id = 1`. -/
def adjustAdmin (st : DBState) (delta : ℚ) : DBState :=
  { st with adminBalance := st.adminBalance + delta }

/-- `insertBalanceTransaction`: append an audit row. -/
def insertTx (st : DBState) (tx : BalanceTx) : DBState :=
  { st with txLog := st.txLog ++ [tx] }

/-- `SELECT id FROM balance_transactions WHERE reference_id = ? AND source = ? LIMIT 1`
existence test. -/
def txExists (st : DBState) (ref : String) (src : String) : Bool :=
  st.txLog.any (fun t => t.reference_id = some ref && t.source = src)

/-- `getMatchById`: `SELECT * FROM matches WHERE id = ? LIMIT 1`. -/
def getMatchById (st : DBState) (matchId : Nat) : Option MatchRow :=
  st.matchRows.find? (fun r => r.id = matchId)

/-- `updateMatch`: `UPDATE matches SET ... WHERE id = ?`, with the column
assignments given as a row transformer `f` (all call sites leave `id` fixed). -/
def updateMatchRows (st : DBState) (matchId : Nat) (f : MatchRow → MatchRow) : DBState :=
  { st with matchRows := st.matchRows.map (fun r => if r.id = matchId then f r else r) }

/-- `insertBet`. -/
def insertBetRow (st : DBState) (matchId userId : Nat) (amount net fee : ℚ) : DBState :=
  { st with bets := st.bets ++
      [{ match_id := matchId, user_id := userId, amount := amount,
         net_amount := net, fee_amount := fee }] }

/-- `getBetsByMatch`: `SELECT * FROM bets WHERE match_id = ?`. -/
def getBetsByMatch (st : DBState) (matchId : Nat) : List BetRow :=
  st.bets.filter (fun b => b.match_id = matchId)

/-- `insertMove`: append a move row with the next auto-increment id. -/
def insertMoveRow (st : DBState) (matchId userId position : Nat) (symbol : Char) : DBState :=
  { st with
      moves := st.moves ++
        [{ id := st.nextMoveId, match_id := matchId, user_id := userId,
           position := position, symbol := symbol }],
      nextMoveId := st.nextMoveId + 1 }

/-! ## Board constants and helpers (6×6 board, 4 in a row) -/

def BOARD_ROWS : Nat := 6
def BOARD_COLS : Nat := 6
def WIN_LENGTH : Nat := 4
def BOARD_CELLS : Nat := BOARD_ROWS * BOARD_COLS

/-- `EMPTY_BOARD = '_'.repeat(BOARD_CELLS)`. -/
def EMPTY_BOARD : List Char := List.replicate BOARD_CELLS '_'

/-- Read a board cell; out-of-range reads behave like an empty cell, which
matches how the JS code treats `undefined` in its comparisons. -/
def cellAt (b : List Char) (i : Nat) : Char := b.getD i '_'

/-- `boardStr.padEnd(BOARD_CELLS, '_').slice(0, BOARD_CELLS)`. -/
def normalizeBoard (b : List Char) : List Char :=
  (b ++ List.replicate (BOARD_CELLS - b.length) '_').take BOARD_CELLS

/-- `b.every(c => c !== '_')`. -/
def boardFull (b : List Char) : Bool := b.all (fun c => c ≠ '_')

/-! ## Reference-id strings (the idempotency keys) -/

def payoutRef (matchId : Nat) : String := "match_" ++ toString matchId ++ "_payout"

def refundCreatorRef (matchId : Nat) : String :=
  "match_" ++ toString matchId ++ "_refund_creator"

def refundOpponentRef (matchId : Nat) : String :=
  "match_" ++ toString matchId ++ "_refund_opponent"

def stakeRef (matchId userId : Nat) : String :=
  "match_" ++ toString matchId ++ "_stake_" ++ toString userId

def createFeeRef (matchId userId : Nat) : String :=
  "match_" ++ toString matchId ++ "_create_fee_" ++ toString userId

def joinFeeRef (matchId userId : Nat) : String :=
  "match_" ++ toString matchId ++ "_join_fee_" ++ toString userId

/-! ## `applyFeeOnce` (matchModel.js) -/

/-- The user-side fee audit row inserted by `applyFeeOnce`. -/
def userFeeTx (referenceId : String) (userId : Nat) (fee : ℚ) : BalanceTx :=
  { user_id := some userId, amount := fee, type := "debit", source := "match_fee",
    reference_id := some referenceId, status := "completed" }

/-- The platform-side fee audit row inserted by `applyFeeOnce`. -/
def adminFeeTx (referenceId : String) (fee : ℚ) : BalanceTx :=
  { user_id := none, amount := fee, type := "credit", source := "match_fee_collected",
    reference_id := some referenceId, status := "completed" }

/-- `applyFeeOnce(conn, referenceId, userId, feeAmount)`: idempotent fee
application.  Returns the applied fee together with the updated store. -/
def applyFeeOnce (st : DBState) (referenceId : String) (userId : Nat) (feeAmount : ℚ) :
    ℚ × DBState :=
  let fee := toFixed2 feeAmount
  if fee ≤ 0 then (0, st)
  else if txExists st referenceId "match_fee_collected" then
    -- admin credit already recorded: backfill only the user-side audit row
    if txExists st referenceId "match_fee" then (fee, st)
    else (fee, insertTx st (userFeeTx referenceId userId fee))
  else
    -- debit user, credit admin once, record both audit rows
    let st1 := adjustBalance st userId (-fee)
    let st2 := insertTx st1 (adminFeeTx referenceId fee)
    let st3 := adjustAdmin st2 fee
    let st4 := insertTx st3 (userFeeTx referenceId userId fee)
    (fee, st4)

/-! ## Counting audit rows (for stating idempotence) -/

/-- Number of platform-credit rows (`source = 'match_fee_collected'`,
`type = 'credit'`) for a reference id. -/
def countAdminFeeTx (st : DBState) (ref : String) : Nat :=
  st.txLog.countP fun t =>
    t.reference_id = some ref && t.source = "match_fee_collected" && t.type = "credit"

/-- Number of user-debit rows (`source = 'match_fee'`, `type = 'debit'`) for a
reference id and user. -/
def countUserFeeTx (st : DBState) (ref : String) (uid : Nat) : Nat :=
  st.txLog.countP fun t =>
    t.reference_id = some ref && t.source = "match_fee" &&
      t.type = "debit" && t.user_id = some uid

/-- Number of rows carrying a given reference id, regardless of source. -/
def countRef (st : DBState) (ref : String) : Nat :=
  st.txLog.countP fun t => t.reference_id = some ref

/-! ## Win detection

The source computes the 4-in-a-row line tuples three times with identical
loops (`generateLines` in simulationService.js, the inlined loops of
`checkWin4` in gameController.js, and the local `detectWinner` inside
`resolveMatchOutcome`); all three enumerate the same tuples in the same
order.  They are embedded once as `LINES`. -/

/-- Horizontal line of `WIN_LENGTH` cells starting at `(r, c)`. -/
def hLine (r c : Nat) : List Nat :=
  [r * BOARD_COLS + c, r * BOARD_COLS + c + 1, r * BOARD_COLS + c + 2, r * BOARD_COLS + c + 3]

/-- Vertical line starting at `(r, c)`. -/
def vLine (r c : Nat) : List Nat :=
  [r * BOARD_COLS + c, (r + 1) * BOARD_COLS + c, (r + 2) * BOARD_COLS + c,
   (r + 3) * BOARD_COLS + c]

/-- Down-right diagonal starting at `(r, c)`. -/
def dLine (r c : Nat) : List Nat :=
  [r * BOARD_COLS + c, (r + 1) * BOARD_COLS + (c + 1), (r + 2) * BOARD_COLS + (c + 2),
   (r + 3) * BOARD_COLS + (c + 3)]

/-- Down-left diagonal starting at `(r, c)` (used with `c ≥ WIN_LENGTH - 1`,
so the `Nat` subtractions never truncate). -/
def aLine (r c : Nat) : List Nat :=
  [r * BOARD_COLS + c, (r + 1) * BOARD_COLS + (c - 1), (r + 2) * BOARD_COLS + (c - 2),
   (r + 3) * BOARD_COLS + (c - 3)]

/-- `generateLines()`: all 54 maximal-run tuples, in the source's loop order
(horizontal rows first, then verticals by column, then both diagonals). -/
def LINES : List (List Nat) :=
  ((List.range BOARD_ROWS).flatMap fun r =>
    (List.range (BOARD_COLS - (WIN_LENGTH - 1))).map fun c => hLine r c)
  ++ ((List.range BOARD_COLS).flatMap fun c =>
    (List.range (BOARD_ROWS - (WIN_LENGTH - 1))).map fun r => vLine r c)
  ++ ((List.range (BOARD_ROWS - (WIN_LENGTH - 1))).flatMap fun r =>
    (List.range (BOARD_COLS - (WIN_LENGTH - 1))).map fun c => dLine r c)
  ++ ((List.range (BOARD_ROWS - (WIN_LENGTH - 1))).flatMap fun r =>
    (List.range (BOARD_COLS - (WIN_LENGTH - 1))).map fun c => aLine r (c + (WIN_LENGTH - 1)))

/-- Does the line win: first cell occupied and every other cell equal to it. -/
def winLine (b : List Char) : List Nat → Bool
  | [] => false
  | i :: rest => decide (cellAt b i ≠ '_') && rest.all fun j => decide (cellAt b j = cellAt b i)

/-- First winning line in scan order, if any. -/
def scanLines (b : List Char) : Option (List Nat) := LINES.find? (winLine b)

/-- Result of a board check: `{ winner, isDraw }`. -/
structure CheckResult where
  winner : Option Char
  isDraw : Bool
  deriving Repr, DecidableEq

/-- The local `detectWinner` of `resolveMatchOutcome` (and `checkBoard` of
simulationService.js): first winning line's mark, else draw iff the board is
fully occupied.  Operates on the board as given (out-of-range cells read as
empty, as the JS `undefined` comparisons do). -/
def detectWinner (b : List Char) : CheckResult :=
  match scanLines b with
  | some l => { winner := some (cellAt b (l.headD 0)), isDraw := false }
  | none => { winner := none, isDraw := boardFull b }

/-- `checkWin4` of gameController.js: pads/truncates the board to
`BOARD_CELLS` and scans the same lines in the same order as `detectWinner`. -/
def checkWin4 (b : List Char) : CheckResult := detectWinner (normalizeBoard b)

/-! ## `resolveMatchOutcome` (matchModel.js) -/

/-- Return value of `resolveMatchOutcome`: an `{already: true}` marker, a
win payout `{winner, payout}`, or a draw refund `{winner: null, draw: true}`. -/
inductive ResolveResult where
  | already (status : String) (winner : Option String)
  | won (winnerId : Option Nat) (payout : ℚ)
  | drawRefund
  deriving Repr, DecidableEq

/-- `resolveMatchOutcome(conn, matchId, board, winner)`: settle a match.
The local winner detection overrides the caller-supplied symbol; a win pays
`2 * bet_amount` to the winning side, otherwise both recorded bets are
refunded (`bets.amount`, i.e. the stake) and the match is marked a draw. -/
def resolveMatchOutcome (st : DBState) (matchId : Nat)
    (boardOrNull : Option (List Char)) (winnerSymbol : Option Char) :
    Except String (ResolveResult × DBState) :=
  match getMatchById st matchId with
  | none => .error "Match not found"
  | some m =>
    if m.status = "finished" then
      .ok (.already m.status m.winner, st)
    else
      let board := normalizeBoard (match boardOrNull with | some b => b | none => m.board)
      let localCheck := detectWinner board
      -- the caller's symbol counts only when local detection finds no run
      let finalWinnerSymbol : Option Char :=
        match localCheck.winner with
        | some w => some w
        | none =>
          if winnerSymbol = some 'X' || winnerSymbol = some 'O' then winnerSymbol else none
      let betRows := getBetsByMatch st matchId
      let creatorBet := betRows.find? fun b => b.user_id = m.creator_id
      let opponentBet : Option BetRow := match m.opponent_id with
        | some oid => betRows.find? fun b => b.user_id = oid
        | none => none
      let totalPooled := toFixed2 (m.bet_amount * 2)
      match finalWinnerSymbol with
      | some w =>
        let winnerId := if w = 'X' then some m.creator_id else m.opponent_id
        let st1 := match winnerId with
          | some wid =>
            insertTx (adjustBalance st wid totalPooled)
              { user_id := some wid, amount := totalPooled, type := "credit",
                source := "match_win", reference_id := some (payoutRef matchId),
                status := "completed" }
          | none => st
        let st2 := updateMatchRows st1 matchId fun r =>
          { r with status := "finished",
                   winner := some (if w = 'X' then "creator" else "opponent"),
                   board := board }
        .ok (.won winnerId totalPooled, st2)
      | none =>
        -- draw or no winner: refund the recorded bet amounts (not the fees)
        let st1 := match creatorBet with
          | some cb =>
            insertTx (adjustBalance st m.creator_id cb.amount)
              { user_id := some m.creator_id, amount := cb.amount, type := "credit",
                source := "match_refund", reference_id := some (refundCreatorRef matchId),
                status := "completed" }
          | none => st
        let st2 := match m.opponent_id, opponentBet with
          | some oid, some ob =>
            insertTx (adjustBalance st1 oid ob.amount)
              { user_id := some oid, amount := ob.amount, type := "credit",
                source := "match_refund", reference_id := some (refundOpponentRef matchId),
                status := "completed" }
          | _, _ => st1
        let st3 := updateMatchRows st2 matchId fun r =>
          { r with status := "finished", winner := some "draw", board := board }
        .ok (.drawRefund, st3)

/-- `resolveMatchOutcomeTx`: convenience wrapper that opens its own
transaction around `resolveMatchOutcome`. -/
def resolveMatchOutcomeTx (st : DBState) (matchId : Nat)
    (boardOrNull : Option (List Char)) (winnerSymbol : Option Char) :
    Except String (ResolveResult × DBState) :=
  resolveMatchOutcome st matchId boardOrNull winnerSymbol

/-! ## Matchmaking: `createMatch` (gameController.js) -/

/-- Result reported to the HTTP client by `createMatch`. -/
inductive CreateMatchResult where
  | matched (matchId : Nat) (fee totalDebit : ℚ)
  | waitingCreated (matchId : Nat) (fee totalDebit : ℚ)
  deriving Repr, DecidableEq

/-- `ORDER BY id ASC LIMIT 1`: the row with the least id (first on ties). -/
def pickOldest : List MatchRow → Option MatchRow
  | [] => none
  | r :: rs =>
    match pickOldest rs with
    | none => some r
    | some m => if r.id ≤ m.id then some r else some m

/-- The waiting-candidate query of `createMatch`:
`SELECT * FROM matches WHERE status = 'waiting' AND opponent_id IS NULL AND
bet_amount = ? ORDER BY id ASC LIMIT 1 FOR UPDATE`. -/
def selectWaitingCandidate (st : DBState) (bet : ℚ) : Option MatchRow :=
  pickOldest (st.matchRows.filter fun r =>
    decide (r.status = "waiting") && decide (r.opponent_id = none) &&
      decide (r.bet_amount = bet))

/-- `createMatchRow`: insert a fresh `waiting` match with `EMPTY_BOARD`. -/
def createMatchRowOp (st : DBState) (creatorId : Nat) (betAmount : ℚ) : Nat × DBState :=
  let matchId := st.nextMatchId
  (matchId,
   { st with
       matchRows := st.matchRows ++
         [{ id := matchId, creator_id := creatorId, opponent_id := none,
            board := EMPTY_BOARD, current_turn := 'X', status := "waiting",
            winner := none, bet_amount := betAmount }],
       nextMatchId := matchId + 1 })

/-- The joining-existing-match branch of `createMatch`. -/
def createMatchJoin (charge : ℚ → ℚ) (st : DBState) (userId : Nat) (betAmount : ℚ)
    (c : MatchRow) : Except String (CreateMatchResult × DBState) :=
  let feeJoin := toFixed2 (charge betAmount)
  let totalDebit := toFixed2 (betAmount + feeJoin)
  if (st.users userId).balance < totalDebit then .error "Insufficient balance to join"
  else
    let st1 := adjustBalance st userId (-betAmount)
    let st2 := if 0 < feeJoin then (applyFeeOnce st1 (joinFeeRef c.id userId) userId feeJoin).2
               else st1
    let st3 := insertTx st2
      { user_id := some userId, amount := betAmount, type := "debit",
        source := "match_stake", reference_id := some (stakeRef c.id userId),
        status := "completed" }
    let st4 := updateMatchRows st3 c.id fun r =>
      { r with opponent_id := some userId, status := "playing", current_turn := 'X' }
    let st5 := insertBetRow st4 c.id c.creator_id betAmount (toFixed2 (betAmount - feeJoin)) feeJoin
    let st6 := insertBetRow st5 c.id userId betAmount (toFixed2 (betAmount - feeJoin)) feeJoin
    .ok (.matched c.id feeJoin totalDebit, st6)

/-- The creating-new-match branch of `createMatch`. -/
def createMatchCreate (st : DBState) (userId : Nat) (betAmount fee totalDebitCreator : ℚ) :
    Except String (CreateMatchResult × DBState) :=
  if (st.users userId).balance < totalDebitCreator then .error "Insufficient balance"
  else
    let st1 := adjustBalance st userId (-betAmount)
    let withId := createMatchRowOp st1 userId betAmount
    let matchId := withId.1
    let st2 := withId.2
    let st3 := if 0 < fee then (applyFeeOnce st2 (createFeeRef matchId userId) userId fee).2
               else st2
    let st4 := updateMatchRows st3 matchId fun r => { r with board := EMPTY_BOARD }
    let st5 := insertTx st4
      { user_id := some userId, amount := betAmount, type := "debit",
        source := "match_stake", reference_id := some (stakeRef matchId userId),
        status := "completed" }
    let st6 := insertBetRow st5 matchId userId betAmount (toFixed2 (betAmount - fee)) fee
    .ok (.waitingCreated matchId fee totalDebitCreator, st6)

/-- `createMatch(req, res)`: the create-or-join entry point.  Joins the
candidate returned by the waiting query only when its creator is not the
caller; otherwise it creates a fresh waiting match. -/
def createMatch (charge : ℚ → ℚ) (st : DBState) (userId : Nat) (betAmount : ℚ) :
    Except String (CreateMatchResult × DBState) :=
  if betAmount ≤ 0 then .error "Invalid bet amount"
  else
    let fee := toFixed2 (charge betAmount)
    let debitStake := toFixed2 betAmount
    let totalDebitCreator := toFixed2 (debitStake + fee)
    match selectWaitingCandidate st betAmount with
    | some c =>
      if c.creator_id ≠ userId then createMatchJoin charge st userId betAmount c
      else createMatchCreate st userId betAmount fee totalDebitCreator
    | none => createMatchCreate st userId betAmount fee totalDebitCreator

/-! ## `playMove` (gameController.js) -/

/-- Outcome of `playMove`: an accepted non-terminal move, or a terminal move
followed by settlement. -/
inductive PlayOutcome where
  | moved
  | resolved (r : ResolveResult)
  deriving Repr, DecidableEq

/-- `playMove(req, res)`: the transactional core of a move request.  The
in-memory timer freshness checks (`Date.now()` against the timer record) are
not modelled — they concern real time; the authoritative acceptance guards
are the status, participant, turn and cell checks embedded here. -/
def playMove (st : DBState) (userId matchId position : Nat) :
    Except String (PlayOutcome × DBState) :=
  if position ≥ BOARD_CELLS then .error "Invalid position"
  else
    match getMatchById st matchId with
    | none => .error "Match not found"
    | some m0 =>
      -- waiting match that already has both participants is upgraded to playing
      -- (user ids are positive, so the JS truthiness test on creator_id passes)
      let stU :=
        if m0.status = "waiting" && m0.opponent_id.isSome then
          updateMatchRows st matchId fun r =>
            { r with status := "playing", current_turn := 'X' }
        else st
      match getMatchById stU matchId with
      | none => .error "Match not found"
      | some m =>
        if m.status ≠ "playing" then .error "Match is not in playing state"
        else
          let playerSymbol : Option Char :=
            if userId = m.creator_id then some 'X'
            else if some userId = m.opponent_id then some 'O'
            else none
          match playerSymbol with
          | none => .error "Not a participant in this match"
          | some sym =>
            if m.current_turn ≠ sym then .error "Not your turn"
            else if (stU.moves.any fun mv =>
                decide (mv.match_id = matchId) && decide (mv.position = position)) then
              .error "Position already taken"
            else
              let stM := insertMoveRow stU matchId userId position sym
              let newBoard := (normalizeBoard m.board).set position sym
              let nextTurn := if sym = 'X' then 'O' else 'X'
              let stB := updateMatchRows stM matchId fun r =>
                { r with board := newBoard, current_turn := nextTurn }
              let cb := checkWin4 newBoard
              if cb.winner.isSome || cb.isDraw then
                -- the move transaction commits, then settlement runs
                match resolveMatchOutcomeTx stB matchId (some newBoard) cb.winner with
                | .ok (rr, st') => .ok (.resolved rr, st')
                | .error e => .error e
              else .ok (.moved, stB)

/-! ## Timer expiry handlers (gameController.js) -/

/-- `SELECT symbol FROM moves WHERE match_id = ? ORDER BY id DESC LIMIT 1`:
the move row with the greatest id for the match. -/
def lastMoveRow (st : DBState) (matchId : Nat) : Option MoveRow :=
  (st.moves.filter fun mv => mv.match_id = matchId).foldl
    (fun acc mv =>
      match acc with
      | none => some mv
      | some a => if a.id ≤ mv.id then some mv else some a) none

/-- `getLastMoveSymbol`. -/
def getLastMoveSymbol (st : DBState) (matchId : Nat) : Option Char :=
  (lastMoveRow st matchId).map (fun mv => mv.symbol)

/-- `onTurnTimeout`: when the per-turn deadline fires, a still-playing match
is resolved in favour of the last mover; with no moves at all, the
non-timed-out side wins (the human-versus-bot special case in the source
reassigns the same symbol, and is embedded as written). -/
def onTurnTimeout (st : DBState) (matchId : Nat) : DBState :=
  match getMatchById st matchId with
  | none => st
  | some m =>
    if m.status ≠ "playing" then st
    else
      let winnerSymbol : Char :=
        match getLastMoveSymbol st matchId with
        | some s => s
        | none =>
          let timedOutSymbol := m.current_turn
          let w := if timedOutSymbol = 'X' then 'O' else 'X'
          let timedOutId := if timedOutSymbol = 'X' then some m.creator_id else m.opponent_id
          let oppId := if timedOutSymbol = 'X' then m.opponent_id else some m.creator_id
          let timedOutIsBot := match timedOutId with
            | some i => (st.users i).is_bot
            | none => false
          let oppIsBot := match oppId with
            | some i => (st.users i).is_bot
            | none => false
          if !timedOutIsBot && oppIsBot then (if timedOutSymbol = 'X' then 'O' else 'X') else w
      match resolveMatchOutcomeTx st matchId (some m.board) (some winnerSymbol) with
      | .ok p => p.2
      | .error _ => st

/-- `onMatchTimeout`: on overall-deadline expiry the side whose turn it is
forfeits. -/
def onMatchTimeout (st : DBState) (matchId : Nat) : DBState :=
  match getMatchById st matchId with
  | none => st
  | some m =>
    if m.status ≠ "playing" then st
    else
      let winnerSymbol := if m.current_turn = 'X' then 'O' else 'X'
      match resolveMatchOutcomeTx st matchId (some m.board) (some winnerSymbol) with
      | .ok p => p.2
      | .error _ => st

/-! ## Bot move chooser (simulationService.js) -/

/-- `availableMoves`: indices of empty cells, in board order (the JS maps
occupied cells to `-1` and filters them out). -/
def availableMoves (b : List Char) : List Nat :=
  (List.range b.length).filter fun i => cellAt b i = '_'

/-- `findImmediateWin`: first line holding exactly `WIN_LENGTH - 1` cells of
`sym` and exactly one empty cell; returns that empty cell.  The JS `-1`
sentinel is modelled as `none`. -/
def findImmediateWin (b : List Char) (sym : Char) : Option Nat :=
  match LINES.find? (fun l =>
      decide (l.countP (fun i => cellAt b i = sym) = WIN_LENGTH - 1) &&
        decide (l.countP (fun i => cellAt b i = '_') = 1)) with
  | some l => l.find? fun i => cellAt b i = '_'
  | none => none

/-- Four times the squared distance of cell `i` to the board centre
`((ROWS-1)/2, (COLS-1)/2)`.  `Math.hypot` comparisons in the JS comparator
coincide with comparisons of this integer key. -/
def sqDistKey (i : Nat) : ℤ :=
  (2 * ((i / BOARD_COLS : Nat) : ℤ) - ((BOARD_ROWS : ℤ) - 1)) ^ 2 +
    (2 * ((i % BOARD_COLS : Nat) : ℤ) - ((BOARD_COLS : ℤ) - 1)) ^ 2

/-- `chooseMoveHeuristic(boardStr, botSym)`: win now, else block the
opponent's win, else pick from the (at most 6) empty cells nearest the
centre.  The JS sorts by score `-dist` descending (equal scores keep board
order) and draws `scored[Math.floor(Math.random() * top)]`; the random draw
is the parameter `k`, reduced modulo `top`. -/
def chooseMoveHeuristic (b : List Char) (botSym : Char) (k : Nat) : Option Nat :=
  let opp := if botSym = 'X' then 'O' else 'X'
  match findImmediateWin b botSym with
  | some w => some w
  | none =>
    match findImmediateWin b opp with
    | some blk => some blk
    | none =>
      let avail := availableMoves b
      let scored := avail.map fun i => (i, sqDistKey i)
      let sorted := scored.mergeSort fun x y => x.2 ≤ y.2
      match sorted with
      | [] => none
      | _ :: _ =>
        let top := max 1 (min 6 sorted.length)
        (sorted[k % top]?).map (fun p => p.1)

/-- `chooseMovePerfect` simply delegates to the heuristic. -/
def chooseMovePerfect (b : List Char) (botSym : Char) (k : Nat) : Option Nat :=
  chooseMoveHeuristic b botSym k

/-! ## Operation alphabet and well-formedness -/

/-- The embedded operations of the core, as one step alphabet.  An
`Except.error` result is a rolled-back transaction: the state is kept. -/
inductive Op where
  | fee (referenceId : String) (userId : Nat) (amount : ℚ)
  | resolve (matchId : Nat) (board : Option (List Char)) (winnerSymbol : Option Char)
  | createOrJoin (charge : ℚ → ℚ) (userId : Nat) (betAmount : ℚ)
  | play (userId matchId position : Nat)
  | turnTimeout (matchId : Nat)
  | matchTimeout (matchId : Nat)

/-- Apply one operation; failed transactions leave the store unchanged. -/
def applyOp (st : DBState) : Op → DBState
  | .fee ref uid amt => (applyFeeOnce st ref uid amt).2
  | .resolve mid b w =>
    match resolveMatchOutcome st mid b w with
    | .ok p => p.2
    | .error _ => st
  | .createOrJoin ch uid bet =>
    match createMatch ch st uid bet with
    | .ok p => p.2
    | .error _ => st
  | .play uid mid pos =>
    match playMove st uid mid pos with
    | .ok p => p.2
    | .error _ => st
  | .turnTimeout mid => onTurnTimeout st mid
  | .matchTimeout mid => onMatchTimeout st mid

/-- Apply a sequence of operations. -/
def applyOps (st : DBState) (ops : List Op) : DBState := ops.foldl applyOp st

/-- Well-formed match ids: the primary-key uniqueness of `matches.id` and
freshness of the auto-increment counter. -/
def WFIds (st : DBState) : Prop :=
  (st.matchRows.map fun r => r.id).Nodup ∧ ∀ r ∈ st.matchRows, r.id < st.nextMatchId

/-! ## Lemmas about `applyFeeOnce` -/

theorem txExists_eq_false_of_countRef_zero {st : DBState} {ref : String} (src : String)
    (h : countRef st ref = 0) : txExists st ref src = false := by
  unfold countRef at h
  unfold txExists
  rw [List.any_eq_false]
  intro t ht
  have := (List.countP_eq_zero.mp h) t ht
  simp only [decide_eq_true_eq] at this
  simp [this]

theorem applyFeeOnce_fresh (st : DBState) (ref : String) (uid : Nat) (f : ℚ)
    (hf : TwoDec f) (hpos : 0 < f)
    (hnone : txExists st ref "match_fee_collected" = false) :
    applyFeeOnce st ref uid f =
      (f, insertTx (adjustAdmin (insertTx (adjustBalance st uid (-f)) (adminFeeTx ref f)) f)
            (userFeeTx ref uid f)) := by
  unfold applyFeeOnce
  rw [toFixed2_eq_self hf, if_neg (not_le.mpr hpos), hnone]
  simp

theorem applyFeeOnce_backfill (st : DBState) (ref : String) (uid : Nat) (f : ℚ)
    (hf : TwoDec f) (hpos : 0 < f)
    (hyes : txExists st ref "match_fee_collected" = true)
    (hno : txExists st ref "match_fee" = false) :
    applyFeeOnce st ref uid f = (f, insertTx st (userFeeTx ref uid f)) := by
  unfold applyFeeOnce
  rw [toFixed2_eq_self hf, if_neg (not_le.mpr hpos), hyes, hno]
  simp

theorem applyFeeOnce_skip (st : DBState) (ref : String) (uid : Nat) (f : ℚ)
    (hf : TwoDec f) (hpos : 0 < f)
    (hyes : txExists st ref "match_fee_collected" = true)
    (hyes2 : txExists st ref "match_fee" = true) :
    applyFeeOnce st ref uid f = (f, st) := by
  unfold applyFeeOnce
  rw [toFixed2_eq_self hf, if_neg (not_le.mpr hpos), hyes, hyes2]
  simp

theorem adminFeeTx_matches_exists (ref : String) (f : ℚ) :
    (decide ((adminFeeTx ref f).reference_id = some ref) &&
      decide ((adminFeeTx ref f).source = "match_fee_collected")) = true := by
  simp [adminFeeTx]

theorem userFeeTx_matches_exists (ref : String) (uid : Nat) (f : ℚ) :
    (decide ((userFeeTx ref uid f).reference_id = some ref) &&
      decide ((userFeeTx ref uid f).source = "match_fee")) = true := by
  simp [userFeeTx]

theorem countP_zero_of_countRef_zero {st : DBState} {r : String} (h : countRef st r = 0)
    {p : BalanceTx → Bool} (hp : ∀ t, p t = true → t.reference_id = some r) :
    st.txLog.countP p = 0 := by
  unfold countRef at h
  rw [List.countP_eq_zero] at h ⊢
  intro t ht hcontra
  exact (h t ht) (by simp [hp t hcontra])

/-! ## Claim C1: idempotence of `applyFeeOnce` -/

/-- The store used for the concrete fee computations: every user holds 1000,
the ledger is empty. -/
def feeDemoState : DBState :=
  { users := fun _ => { balance := 1000, is_bot := false }
  , adminBalance := 0
  , matchRows := []
  , bets := []
  , moves := []
  , txLog := []
  , nextMatchId := 1
  , nextMoveId := 1 }

/-- Claim C1, counterexample.  For the fee amount `f = 1/1000 > 0` the claim
fails: `applyFeeOnce` normalises the fee with `toFixed(2)`, which rounds
`0.001` to `0`, so both calls return `0` (not `f`) and no platform-credit
balance transaction is recorded at all (the claim demands exactly one). -/
theorem C1_counterexample :
    (applyFeeOnce feeDemoState "match_1_create_fee_7" 7 (1/1000)).1 ≠ 1/1000 ∧
    countAdminFeeTx
      (applyFeeOnce
        (applyFeeOnce feeDemoState "match_1_create_fee_7" 7 (1/1000)).2
        "match_1_create_fee_7" 7 (1/1000)).2 "match_1_create_fee_7" = 0 := by
  have h : applyFeeOnce feeDemoState "match_1_create_fee_7" 7 (1/1000) =
      (0, feeDemoState) := by
    unfold applyFeeOnce
    norm_num [toFixed2, jsRound]
  refine ⟨?_, ?_⟩
  · rw [h]; norm_num
  · rw [h, h]; rfl

/-- Claim C1 (amended): for every fee amount `f > 0` that is exactly
representable with two decimal places (so the `toFixed(2)` normalisation is
the identity), calling `applyFeeOnce` twice with the same reference id, from
a ledger holding no transaction with that reference id, leaves exactly one
platform-credit row (`source 'match_fee_collected'`) and exactly one
user-debit row (`source 'match_fee'`) for that reference id, credits the
platform balance by `f` exactly once, debits the user by `f` exactly once,
leaves every other user untouched, and both calls return `f`. -/
theorem C1_amended (st : DBState) (r : String) (u : Nat) (f : ℚ)
    (hf : TwoDec f) (hpos : 0 < f) (hfresh : countRef st r = 0) :
    (applyFeeOnce st r u f).1 = f ∧
    (applyFeeOnce (applyFeeOnce st r u f).2 r u f).1 = f ∧
    (applyFeeOnce (applyFeeOnce st r u f).2 r u f).2 = (applyFeeOnce st r u f).2 ∧
    countAdminFeeTx (applyFeeOnce st r u f).2 r = 1 ∧
    countUserFeeTx (applyFeeOnce st r u f).2 r u = 1 ∧
    ((applyFeeOnce st r u f).2.adminBalance = st.adminBalance + f) ∧
    (((applyFeeOnce st r u f).2.users u).balance = (st.users u).balance - f) ∧
    (∀ v, v ≠ u → (applyFeeOnce st r u f).2.users v = st.users v) := by
  have hcoll : txExists st r "match_fee_collected" = false :=
    txExists_eq_false_of_countRef_zero _ hfresh
  have h1 := applyFeeOnce_fresh st r u f hf hpos hcoll
  have hlog : (applyFeeOnce st r u f).2.txLog =
      st.txLog ++ [adminFeeTx r f] ++ [userFeeTx r u f] := by
    rw [h1]; simp [insertTx, adjustAdmin, adjustBalance]
  have hex1 : txExists (applyFeeOnce st r u f).2 r "match_fee_collected" = true := by
    unfold txExists
    rw [hlog]
    simp [List.any_append, adminFeeTx]
  have hex2 : txExists (applyFeeOnce st r u f).2 r "match_fee" = true := by
    unfold txExists
    rw [hlog]
    simp [List.any_append, userFeeTx]
  have h2 := applyFeeOnce_skip (applyFeeOnce st r u f).2 r u f hf hpos hex1 hex2
  have hz1 : st.txLog.countP (fun t =>
      decide (t.reference_id = some r) && decide (t.source = "match_fee_collected") &&
        decide (t.type = "credit")) = 0 := by
    refine countP_zero_of_countRef_zero hfresh ?_
    intro t ht
    simp only [Bool.and_eq_true, decide_eq_true_eq] at ht
    exact ht.1.1
  have hz2 : st.txLog.countP (fun t =>
      decide (t.reference_id = some r) && decide (t.source = "match_fee") &&
        decide (t.type = "debit") && decide (t.user_id = some u)) = 0 := by
    refine countP_zero_of_countRef_zero hfresh ?_
    intro t ht
    simp only [Bool.and_eq_true, decide_eq_true_eq] at ht
    exact ht.1.1.1
  refine ⟨by rw [h1], by rw [h2], by rw [h2], ?_, ?_, ?_, ?_, ?_⟩
  · unfold countAdminFeeTx
    rw [hlog]
    rw [List.countP_append, List.countP_append, hz1]
    simp [adminFeeTx, userFeeTx]
  · unfold countUserFeeTx
    rw [hlog]
    rw [List.countP_append, List.countP_append, hz2]
    simp [adminFeeTx, userFeeTx]
  · rw [h1]; simp [insertTx, adjustAdmin, adjustBalance]
  · rw [h1]
    simp only [insertTx, adjustAdmin, adjustBalance]
    simp
    ring
  · intro v hv
    rw [h1]
    simp [insertTx, adjustAdmin, adjustBalance, hv]

/-- Witness for `C1_amended` at the concrete input `f = 10`. -/
theorem C1_amended_witness :
    (TwoDec (10 : ℚ) ∧ (0 : ℚ) < 10 ∧ countRef feeDemoState "match_1_create_fee_7" = 0) ∧
    countAdminFeeTx (applyFeeOnce feeDemoState "match_1_create_fee_7" 7 10).2
      "match_1_create_fee_7" = 1 ∧
    (applyFeeOnce feeDemoState "match_1_create_fee_7" 7 10).1 = 10 := by
  have hf : TwoDec (10 : ℚ) := ⟨1000, by norm_num⟩
  have hpos : (0 : ℚ) < 10 := by norm_num
  have hfresh : countRef feeDemoState "match_1_create_fee_7" = 0 := rfl
  have h := C1_amended feeDemoState "match_1_create_fee_7" 7 10 hf hpos hfresh
  exact ⟨⟨hf, hpos, hfresh⟩, h.2.2.2.1, h.1⟩

/-! ## Claim C10: the backfill branch only completes the audit log -/

/-- Claim C10: when the platform-side `match_fee_collected` row already
exists for the reference id but the user-side `match_fee` row is missing,
`applyFeeOnce` only appends the user-side audit row: every user balance and
the admin balance are unchanged (no money moves), the matches/bets/moves
tables are untouched, and the call returns the (two-decimal) fee amount. -/
theorem C10_backfill_frame (st : DBState) (r : String) (u : Nat) (f : ℚ)
    (hf : TwoDec f) (hpos : 0 < f)
    (hyes : txExists st r "match_fee_collected" = true)
    (hno : txExists st r "match_fee" = false) :
    (applyFeeOnce st r u f).1 = f ∧
    (applyFeeOnce st r u f).2.users = st.users ∧
    (applyFeeOnce st r u f).2.adminBalance = st.adminBalance ∧
    (applyFeeOnce st r u f).2.matchRows = st.matchRows ∧
    (applyFeeOnce st r u f).2.bets = st.bets ∧
    (applyFeeOnce st r u f).2.moves = st.moves ∧
    (applyFeeOnce st r u f).2.txLog = st.txLog ++ [userFeeTx r u f] := by
  have h := applyFeeOnce_backfill st r u f hf hpos hyes hno
  rw [h]
  exact ⟨rfl, rfl, rfl, rfl, rfl, rfl, rfl⟩

/-- The store used for the C10 witness: the platform-side fee row for
reference id `"ref10"` is present, the user-side row is missing. -/
def backfillDemoState : DBState :=
  { feeDemoState with txLog := [adminFeeTx "ref10" 10] }

/-- Witness for `C10_backfill_frame` at a concrete input. -/
theorem C10_backfill_frame_witness :
    (TwoDec (10 : ℚ) ∧ (0 : ℚ) < 10 ∧
      txExists backfillDemoState "ref10" "match_fee_collected" = true ∧
      txExists backfillDemoState "ref10" "match_fee" = false) ∧
    (applyFeeOnce backfillDemoState "ref10" 7 10).1 = 10 ∧
    (applyFeeOnce backfillDemoState "ref10" 7 10).2.adminBalance =
      backfillDemoState.adminBalance := by
  have hf : TwoDec (10 : ℚ) := ⟨1000, by norm_num⟩
  have hpos : (0 : ℚ) < 10 := by norm_num
  have hyes : txExists backfillDemoState "ref10" "match_fee_collected" = true := by
    decide
  have hno : txExists backfillDemoState "ref10" "match_fee" = false := by
    decide
  have h := C10_backfill_frame backfillDemoState "ref10" 7 10 hf hpos hyes hno
  exact ⟨⟨hf, hpos, hyes, hno⟩, h.1, h.2.2.1⟩

/-! ## Line geometry: the spec-side notion of a winning run -/

/-- The shape of a generated line: a horizontal, vertical or diagonal
run of `WIN_LENGTH` consecutive cells inside the 6×6 grid. -/
def LineShape (l : List Nat) : Prop :=
  (∃ r ∈ List.range 6, ∃ c ∈ List.range 3, l = hLine r c) ∨
  (∃ c ∈ List.range 6, ∃ r ∈ List.range 3, l = vLine r c) ∨
  (∃ r ∈ List.range 3, ∃ c ∈ List.range 3, l = dLine r c) ∨
  (∃ r ∈ List.range 3, ∃ c ∈ List.range 3, l = aLine r (c + 3))

/-- Mark `m` fully occupies some horizontal, vertical or (either-direction)
diagonal run of 4 consecutive cells of the 6×6 board.  Stated directly with
the grid arithmetic of the claim, independently of `LINES`. -/
def isRun (b : List Char) (m : Char) : Prop :=
  (∃ r ∈ List.range 6, ∃ c ∈ List.range 3,
    ∀ k ∈ List.range 4, cellAt b (r * 6 + c + k) = m) ∨
  (∃ c ∈ List.range 6, ∃ r ∈ List.range 3,
    ∀ k ∈ List.range 4, cellAt b ((r + k) * 6 + c) = m) ∨
  (∃ r ∈ List.range 3, ∃ c ∈ List.range 3,
    ∀ k ∈ List.range 4, cellAt b ((r + k) * 6 + (c + k)) = m) ∨
  (∃ r ∈ List.range 3, ∃ c ∈ List.range 3,
    ∀ k ∈ List.range 4, cellAt b ((r + k) * 6 + (c + 3 - k)) = m)

theorem hLine_mem_LINES : ∀ r ∈ List.range 6, ∀ c ∈ List.range 3, hLine r c ∈ LINES := by
  decide

theorem vLine_mem_LINES : ∀ c ∈ List.range 6, ∀ r ∈ List.range 3, vLine r c ∈ LINES := by
  decide

theorem dLine_mem_LINES : ∀ r ∈ List.range 3, ∀ c ∈ List.range 3, dLine r c ∈ LINES := by
  decide

theorem aLine_mem_LINES : ∀ r ∈ List.range 3, ∀ c ∈ List.range 3, aLine r (c + 3) ∈ LINES := by
  decide

instance : DecidablePred LineShape := fun l => by
  unfold LineShape
  infer_instance

instance decIsRun (b : List Char) (m : Char) : Decidable (isRun b m) := by
  unfold isRun
  infer_instance

theorem lines_shape : ∀ l ∈ LINES, LineShape l := by decide

theorem range4_eq : List.range 4 = [0, 1, 2, 3] := by decide

/-- A line of each shape that is fully occupied by a non-empty mark is a
winning line for `winLine`, and conversely. -/
theorem winLine_of_isRun {b : List Char} {m : Char} (hm : m ≠ '_') (h : isRun b m) :
    ∃ l ∈ LINES, winLine b l = true := by
  rcases h with ⟨r, hr, c, hc, hcells⟩ | ⟨c, hc, r, hr, hcells⟩ |
    ⟨r, hr, c, hc, hcells⟩ | ⟨r, hr, c, hc, hcells⟩
  · refine ⟨hLine r c, hLine_mem_LINES r hr c hc, ?_⟩
    rw [range4_eq] at hcells
    simp only [List.mem_cons, List.not_mem_nil] at hcells
    have h0 := hcells 0 (by tauto)
    have h1 := hcells 1 (by tauto)
    have h2 := hcells 2 (by tauto)
    have h3 := hcells 3 (by tauto)
    simp only [Nat.add_zero] at h0
    simp [winLine, hLine, BOARD_COLS, h0, h1, h2, h3, hm]
  · refine ⟨vLine r c, vLine_mem_LINES c hc r hr, ?_⟩
    rw [range4_eq] at hcells
    simp only [List.mem_cons, List.not_mem_nil] at hcells
    have h0 := hcells 0 (by tauto)
    have h1 := hcells 1 (by tauto)
    have h2 := hcells 2 (by tauto)
    have h3 := hcells 3 (by tauto)
    simp only [Nat.add_zero] at h0
    simp [winLine, vLine, BOARD_COLS, h0, h1, h2, h3, hm]
  · refine ⟨dLine r c, dLine_mem_LINES r hr c hc, ?_⟩
    rw [range4_eq] at hcells
    simp only [List.mem_cons, List.not_mem_nil] at hcells
    have h0 := hcells 0 (by tauto)
    have h1 := hcells 1 (by tauto)
    have h2 := hcells 2 (by tauto)
    have h3 := hcells 3 (by tauto)
    simp only [Nat.add_zero] at h0
    simp [winLine, dLine, BOARD_COLS, h0, h1, h2, h3, hm]
  · refine ⟨aLine r (c + 3), aLine_mem_LINES r hr c hc, ?_⟩
    rw [range4_eq] at hcells
    simp only [List.mem_cons, List.not_mem_nil] at hcells
    have h0 := hcells 0 (by tauto)
    have h1 := hcells 1 (by tauto)
    have h2 := hcells 2 (by tauto)
    have h3 := hcells 3 (by tauto)
    simp only [Nat.add_zero, Nat.sub_zero] at h0
    have e1 : (r + 1) * 6 + (c + 3 - 1) = (r + 1) * 6 + (c + 2) := by omega
    have e2 : (r + 2) * 6 + (c + 3 - 2) = (r + 2) * 6 + (c + 1) := by omega
    have e3 : (r + 3) * 6 + (c + 3 - 3) = (r + 3) * 6 + c := by omega
    rw [e1] at h1
    rw [e2] at h2
    rw [e3] at h3
    simp [winLine, aLine, BOARD_COLS, h0, h1, h2, h3, hm]

/-- Soundness direction: a winning line found by the scan yields a run of
its head mark, and that mark is not the empty cell. -/
theorem isRun_of_winLine {b : List Char} {l : List Nat}
    (hl : l ∈ LINES) (hw : winLine b l = true) :
    cellAt b (l.headD 0) ≠ '_' ∧ isRun b (cellAt b (l.headD 0)) := by
  have hshape := lines_shape l hl
  rcases hshape with ⟨r, hr, c, hc, rfl⟩ | ⟨c, hc, r, hr, rfl⟩ |
    ⟨r, hr, c, hc, rfl⟩ | ⟨r, hr, c, hc, rfl⟩
  · simp only [winLine, hLine, BOARD_COLS, List.all_cons, List.all_nil,
      Bool.and_true, Bool.and_eq_true, decide_eq_true_eq] at hw
    obtain ⟨hne, e1, e2, e3⟩ := hw
    refine ⟨by simpa [hLine] using hne, Or.inl ⟨r, hr, c, hc, ?_⟩⟩
    rw [range4_eq]
    intro k hk
    simp only [hLine]
    rcases List.mem_cons.mp hk with rfl | hk
    · simp [BOARD_COLS]
    rcases List.mem_cons.mp hk with rfl | hk
    · simpa [BOARD_COLS] using e1
    rcases List.mem_cons.mp hk with rfl | hk
    · simpa [BOARD_COLS] using e2
    rcases List.mem_cons.mp hk with rfl | hk
    · simpa [BOARD_COLS] using e3
    simp at hk
  · simp only [winLine, vLine, BOARD_COLS, List.all_cons, List.all_nil,
      Bool.and_true, Bool.and_eq_true, decide_eq_true_eq] at hw
    obtain ⟨hne, e1, e2, e3⟩ := hw
    refine ⟨by simpa [vLine] using hne, Or.inr (Or.inl ⟨c, hc, r, hr, ?_⟩)⟩
    rw [range4_eq]
    intro k hk
    simp only [vLine]
    rcases List.mem_cons.mp hk with rfl | hk
    · simp [BOARD_COLS]
    rcases List.mem_cons.mp hk with rfl | hk
    · simpa [BOARD_COLS] using e1
    rcases List.mem_cons.mp hk with rfl | hk
    · simpa [BOARD_COLS] using e2
    rcases List.mem_cons.mp hk with rfl | hk
    · simpa [BOARD_COLS] using e3
    simp at hk
  · simp only [winLine, dLine, BOARD_COLS, List.all_cons, List.all_nil,
      Bool.and_true, Bool.and_eq_true, decide_eq_true_eq] at hw
    obtain ⟨hne, e1, e2, e3⟩ := hw
    refine ⟨by simpa [dLine] using hne, Or.inr (Or.inr (Or.inl ⟨r, hr, c, hc, ?_⟩))⟩
    rw [range4_eq]
    intro k hk
    simp only [dLine]
    rcases List.mem_cons.mp hk with rfl | hk
    · simp [BOARD_COLS]
    rcases List.mem_cons.mp hk with rfl | hk
    · simpa [BOARD_COLS] using e1
    rcases List.mem_cons.mp hk with rfl | hk
    · simpa [BOARD_COLS] using e2
    rcases List.mem_cons.mp hk with rfl | hk
    · simpa [BOARD_COLS] using e3
    simp at hk
  · simp only [winLine, aLine, BOARD_COLS, List.all_cons, List.all_nil,
      Bool.and_true, Bool.and_eq_true, decide_eq_true_eq] at hw
    obtain ⟨hne, e1, e2, e3⟩ := hw
    refine ⟨by simpa [aLine] using hne, Or.inr (Or.inr (Or.inr ⟨r, hr, c, hc, ?_⟩))⟩
    rw [range4_eq]
    intro k hk
    simp only [aLine]
    rcases List.mem_cons.mp hk with rfl | hk
    · simp [BOARD_COLS]
    rcases List.mem_cons.mp hk with rfl | hk
    · simpa [BOARD_COLS] using e1
    rcases List.mem_cons.mp hk with rfl | hk
    · simpa [BOARD_COLS] using e2
    rcases List.mem_cons.mp hk with rfl | hk
    · simpa [BOARD_COLS] using e3
    simp at hk

theorem cellAt_mem_of_ne {b : List Char} {i : Nat} (h : cellAt b i ≠ '_') :
    cellAt b i ∈ b := by
  unfold cellAt List.getD at *
  cases hg : b.get? i with
  | none => rw [hg] at h; simp at h
  | some x =>
    simpa using List.get?_mem hg

theorem otherMark_cases {m : Char} (hm : m = 'X' ∨ m = 'O') {m0 : Char}
    (h0 : m0 = 'X' ∨ m0 = 'O') (hne : m0 ≠ m) : m0 = (if m = 'X' then 'O' else 'X') := by
  rcases hm with rfl | rfl <;> rcases h0 with rfl | rfl <;> simp_all

/-- The winner reported by `detectWinner` characterised against the spec
notion of a run, on boards over the three-symbol alphabet where the opposite
mark holds no run. -/
theorem detectWinner_winner_iff {b : List Char} {m : Char}
    (halpha : ∀ ch ∈ b, ch = '_' ∨ ch = 'X' ∨ ch = 'O')
    (hm : m = 'X' ∨ m = 'O')
    (hother : ¬ isRun b (if m = 'X' then 'O' else 'X')) :
    (detectWinner b).winner = some m ↔ isRun b m := by
  constructor
  · intro h
    cases hs : scanLines b with
    | none => unfold detectWinner at h; rw [hs] at h; simp at h
    | some l =>
      unfold detectWinner at h
      rw [hs] at h
      simp only [Option.some.injEq] at h
      have hw : winLine b l = true := List.find?_some hs
      have hmem : l ∈ LINES := List.mem_of_find?_eq_some hs
      have hrun := (isRun_of_winLine hmem hw).2
      rwa [h] at hrun
  · intro h
    have hm' : m ≠ '_' := by rcases hm with rfl | rfl <;> decide
    obtain ⟨l, hmem, hw⟩ := winLine_of_isRun hm' h
    cases hs : scanLines b with
    | none =>
      have := (List.find?_eq_none.mp hs) l hmem
      exact absurd hw this
    | some l0 =>
      have hw0 : winLine b l0 = true := List.find?_some hs
      have hmem0 : l0 ∈ LINES := List.mem_of_find?_eq_some hs
      obtain ⟨hne0, hrun0⟩ := isRun_of_winLine hmem0 hw0
      have hm0alpha := halpha _ (cellAt_mem_of_ne hne0)
      have hm0 : cellAt b (l0.headD 0) = m := by
        rcases hm0alpha with h_ | h_ | h_
        · exact absurd h_ hne0
        · by_contra hneq
          have := otherMark_cases hm (Or.inl h_) hneq
          rw [this] at hrun0
          exact hother hrun0
        · by_contra hneq
          have := otherMark_cases hm (Or.inr h_) hneq
          rw [this] at hrun0
          exact hother hrun0
      unfold detectWinner
      rw [hs]
      simpa using hm0

/-- The draw flag of `detectWinner` characterised: draw iff every cell is
occupied and neither mark holds a run. -/
theorem detectWinner_isDraw_iff {b : List Char}
    (halpha : ∀ ch ∈ b, ch = '_' ∨ ch = 'X' ∨ ch = 'O') (hlen : b.length = 36) :
    (detectWinner b).isDraw = true ↔
      ((∀ i, i < 36 → cellAt b i ≠ '_') ∧ ¬ isRun b 'X' ∧ ¬ isRun b 'O') := by
  constructor
  · intro h
    cases hs : scanLines b with
    | some l => unfold detectWinner at h; rw [hs] at h; simp at h
    | none =>
      unfold detectWinner at h
      rw [hs] at h
      simp only at h
      refine ⟨?_, ?_, ?_⟩
      · intro i hi
        have hil : i < b.length := by omega
        have hcell : cellAt b i = b[i] := by
          unfold cellAt
          exact List.getD_eq_getElem b '_' hil
        rw [hcell]
        have := (List.all_eq_true.mp h) b[i] (List.getElem_mem hil)
        simpa using this
      · intro hrun
        obtain ⟨l, hmem, hw⟩ := winLine_of_isRun (by decide) hrun
        exact absurd hw ((List.find?_eq_none.mp hs) l hmem)
      · intro hrun
        obtain ⟨l, hmem, hw⟩ := winLine_of_isRun (by decide) hrun
        exact absurd hw ((List.find?_eq_none.mp hs) l hmem)
  · rintro ⟨hfull, hnx, hno⟩
    have hs : scanLines b = none := by
      unfold scanLines
      rw [List.find?_eq_none]
      intro l hl hcontra
      obtain ⟨hne, hrun⟩ := isRun_of_winLine hl hcontra
      rcases halpha _ (cellAt_mem_of_ne hne) with h_ | h_ | h_
      · exact hne h_
      · rw [h_] at hrun; exact hnx hrun
      · rw [h_] at hrun; exact hno hrun
    unfold detectWinner
    rw [hs]
    simp only [boardFull, List.all_eq_true]
    intro ch hch
    obtain ⟨i, hi, rfl⟩ := List.mem_iff_getElem.mp hch
    have hcell : cellAt b i = b[i] := by
      unfold cellAt
      exact List.getD_eq_getElem b '_' hi
    have := hfull i (by omega)
    rw [hcell] at this
    simpa using this

/-- A 36-cell board needs no padding. -/
theorem normalizeBoard_eq_self {b : List Char} (hlen : b.length = 36) :
    normalizeBoard b = b := by
  have h36 : BOARD_CELLS = 36 := rfl
  unfold normalizeBoard
  rw [h36, hlen]
  simp only [Nat.sub_self, List.replicate_zero, List.append_nil]
  conv_lhs => rw [← hlen]
  exact List.take_length b

/-! ## Claim C5: the win check against the line rule -/

/-- Extract the post-state of a settlement call (an error is a rollback). -/
def resultState (e : Except String (ResolveResult × DBState)) (dflt : DBState) : DBState :=
  match e with
  | .ok p => p.2
  | .error _ => dflt

/-- A 6×6 board with a horizontal run of 4 `'X'` starting at row 2, col 0. -/
def row2Board : List Char := List.replicate 12 '_' ++ ['X', 'X', 'X', 'X'] ++ List.replicate 20 '_'

/-- A playing match row (creator 1 with mark X, opponent 2) holding `row2Board`. -/
def row2MatchRow : MatchRow :=
  { id := 1, creator_id := 1, opponent_id := some 2, board := row2Board,
    current_turn := 'O', status := "playing", winner := none, bet_amount := 0 }

/-- A store holding only `row2MatchRow`. -/
def row2DemoState : DBState :=
  { users := fun _ => { balance := 1000, is_bot := false }
  , adminBalance := 0
  , matchRows := [row2MatchRow]
  , bets := [], moves := [], txLog := [], nextMatchId := 2, nextMoveId := 1 }

/-- A board holding a completed run for each mark (row 0 for X, row 1 for O). -/
def doubleRunBoard : List Char :=
  ['X', 'X', 'X', 'X', '_', '_'] ++ ['O', 'O', 'O', 'O', '_', '_'] ++ List.replicate 24 '_'

/-- Claim C5, counterexample.  On `doubleRunBoard` the mark `'O'` fully
occupies a horizontal run of 4, yet the win check declares `'X'` (the first
line in scan order) the winner and not `'O'` — so "declares M the winner iff
some line is fully occupied by M", quantified over all boards over
`{_, X, O}`, is false at `M = 'O'`. -/
theorem C5_counterexample :
    isRun doubleRunBoard 'O' ∧
    (checkWin4 doubleRunBoard).winner = some 'X' ∧
    (checkWin4 doubleRunBoard).winner ≠ some 'O' := by
  decide

/-- Claim C5 (amended): for every 6×6 board over `{_, X, O}` and mark `M`
such that the opposite mark holds no completed run, the win check declares
`M` the winner iff some horizontal, vertical or diagonal (either direction)
line of 4 consecutive cells is fully occupied by `M` (on a board where both
marks hold runs, the check reports the first run in scan order); it declares
a draw iff every cell is occupied and no mark holds such a line; and a board
with a horizontal run of 4 of the creator's mark starting at row 2, col 0
resolves `winner = creator`. -/
theorem C5_win_check (b : List Char) (hlen : b.length = 36)
    (halpha : ∀ ch ∈ b, ch = '_' ∨ ch = 'X' ∨ ch = 'O') :
    (∀ m, (m = 'X' ∨ m = 'O') → ¬ isRun b (if m = 'X' then 'O' else 'X') →
      ((checkWin4 b).winner = some m ↔ isRun b m)) ∧
    ((checkWin4 b).isDraw = true ↔
      ((∀ i, i < 36 → cellAt b i ≠ '_') ∧ ¬ isRun b 'X' ∧ ¬ isRun b 'O')) ∧
    ((getMatchById (resultState (resolveMatchOutcome row2DemoState 1 (some row2Board) none)
        row2DemoState) 1).map (fun r => r.winner) = some (some "creator")) := by
  have hn := normalizeBoard_eq_self hlen
  unfold checkWin4
  rw [hn]
  exact ⟨fun m hm hother => detectWinner_winner_iff halpha hm hother,
         detectWinner_isDraw_iff halpha hlen, by decide⟩

/-- Witness for `C5_win_check` at the concrete board `row2Board`. -/
theorem C5_win_check_witness :
    (row2Board.length = 36 ∧
      (∀ ch ∈ row2Board, ch = '_' ∨ ch = 'X' ∨ ch = 'O') ∧
      ¬ isRun row2Board 'O') ∧
    ((checkWin4 row2Board).winner = some 'X' ↔ isRun row2Board 'X') ∧
    (checkWin4 row2Board).winner = some 'X' := by
  have hlen : row2Board.length = 36 := by decide
  have halpha : ∀ ch ∈ row2Board, ch = '_' ∨ ch = 'X' ∨ ch = 'O' := by decide
  have hother : ¬ isRun row2Board 'O' := by decide
  have h := C5_win_check row2Board hlen halpha
  have hiff := h.1 'X' (Or.inl rfl) (by simpa using hother)
  exact ⟨⟨hlen, halpha, hother⟩, hiff, hiff.mpr (by decide)⟩

/-! ## Shape lemmas for `resolveMatchOutcome` -/

theorem getMatchById_updateMatchRows_self (st : DBState) (matchId : Nat) (f : MatchRow → MatchRow)
    (hid : ∀ r, (f r).id = r.id) :
    getMatchById (updateMatchRows st matchId f) matchId = (getMatchById st matchId).map f := by
  unfold getMatchById updateMatchRows
  rw [List.find?_map]
  have hp : ((fun r => decide (r.id = matchId)) ∘ fun r => if r.id = matchId then f r else r)
      = fun r => decide (r.id = matchId) := by
    funext r
    by_cases hr : r.id = matchId
    · simp [hr, hid]
    · simp [hr]
  rw [hp]
  cases hfind : List.find? (fun r => decide (r.id = matchId)) st.matchRows with
  | none => rfl
  | some r =>
    have hr : r.id = matchId := by simpa using List.find?_some hfind
    simp [hr]

/-- Settling a not-yet-finished match whose board holds a completed run for
`M` pays the holder of `M` and finishes the match, whatever the caller's
symbol. -/
theorem resolve_win_shape (st : DBState) (matchId : Nat) (m : MatchRow) (b : List Char)
    (ws : Option Char) (M : Char) (h : Nat)
    (hm : getMatchById st matchId = some m) (hst : ¬ m.status = "finished")
    (hdet : (detectWinner (normalizeBoard b)).winner = some M)
    (hwin : (if M = 'X' then some m.creator_id else m.opponent_id) = some h) :
    resolveMatchOutcome st matchId (some b) ws =
      .ok (.won (some h) (toFixed2 (m.bet_amount * 2)),
        updateMatchRows
          (insertTx (adjustBalance st h (toFixed2 (m.bet_amount * 2)))
            { user_id := some h, amount := toFixed2 (m.bet_amount * 2), type := "credit",
              source := "match_win", reference_id := some (payoutRef matchId),
              status := "completed" })
          matchId (fun r =>
            { r with status := "finished",
                     winner := some (if M = 'X' then "creator" else "opponent"),
                     board := normalizeBoard b })) := by
  unfold resolveMatchOutcome
  rw [hm]
  simp only [hst, if_false]
  simp only [hdet, hwin]

/-- With no run on the board, a caller-supplied symbol decides the payout. -/
theorem resolve_callerwin_shape (st : DBState) (matchId : Nat) (m : MatchRow) (b : List Char)
    (w : Char) (h : Nat)
    (hm : getMatchById st matchId = some m) (hst : ¬ m.status = "finished")
    (hdet : (detectWinner (normalizeBoard b)).winner = none)
    (hw : w = 'X' ∨ w = 'O')
    (hwin : (if w = 'X' then some m.creator_id else m.opponent_id) = some h) :
    resolveMatchOutcome st matchId (some b) (some w) =
      .ok (.won (some h) (toFixed2 (m.bet_amount * 2)),
        updateMatchRows
          (insertTx (adjustBalance st h (toFixed2 (m.bet_amount * 2)))
            { user_id := some h, amount := toFixed2 (m.bet_amount * 2), type := "credit",
              source := "match_win", reference_id := some (payoutRef matchId),
              status := "completed" })
          matchId (fun r =>
            { r with status := "finished",
                     winner := some (if w = 'X' then "creator" else "opponent"),
                     board := normalizeBoard b })) := by
  unfold resolveMatchOutcome
  rw [hm]
  simp only [hst, if_false]
  simp only [hdet]
  rcases hw with rfl | rfl
  · have hc : m.creator_id = h := by simpa using hwin
    subst hc
    simp
  · have ho : m.opponent_id = some h := by simpa using hwin
    simp only [ho]
    simp

/-- With no run and no caller symbol, both recorded bets are refunded at
their `amount` column and the match finishes as a draw. -/
theorem resolve_draw_shape (st : DBState) (matchId : Nat) (m : MatchRow) (b : List Char)
    (cb ob : BetRow) (oid : Nat)
    (hm : getMatchById st matchId = some m) (hst : ¬ m.status = "finished")
    (hdet : (detectWinner (normalizeBoard b)).winner = none)
    (hopp : m.opponent_id = some oid)
    (hcb : List.find? (fun bb => decide (bb.user_id = m.creator_id)) (getBetsByMatch st matchId)
      = some cb)
    (hob : List.find? (fun bb => decide (bb.user_id = oid)) (getBetsByMatch st matchId) = some ob) :
    resolveMatchOutcome st matchId (some b) none =
      .ok (.drawRefund,
        updateMatchRows
          (insertTx
            (adjustBalance
              (insertTx (adjustBalance st m.creator_id cb.amount)
                { user_id := some m.creator_id, amount := cb.amount, type := "credit",
                  source := "match_refund", reference_id := some (refundCreatorRef matchId),
                  status := "completed" })
              oid ob.amount)
            { user_id := some oid, amount := ob.amount, type := "credit",
              source := "match_refund", reference_id := some (refundOpponentRef matchId),
              status := "completed" })
          matchId (fun r =>
            { r with status := "finished", winner := some "draw",
                     board := normalizeBoard b })) := by
  unfold resolveMatchOutcome
  rw [hm]
  simp only [hst, if_false]
  simp only [hdet, hopp, hcb, hob]
  simp

/-- Settling an already-finished match is a no-op that reports the marker. -/
theorem resolve_finished_noop (st : DBState) (matchId : Nat) (m : MatchRow)
    (bo : Option (List Char)) (ws : Option Char)
    (hm : getMatchById st matchId = some m) (hst : m.status = "finished") :
    resolveMatchOutcome st matchId bo ws = .ok (.already m.status m.winner, st) := by
  unfold resolveMatchOutcome
  rw [hm]
  simp [hst]


/-! ## Claim C9: board detection overrides the caller's symbol -/

/-- Claim C9: in `resolveMatchOutcome` the winner recomputed from the board
overrides the caller-supplied symbol.  For every not-yet-finished match: if
the board holds a completed run for mark `M` and the side holding `M` has a
user id `h`, then — for every caller symbol `ws` — the pot
`toFixed2 (2 * bet)` is credited to `h` and the match finishes with `h`'s
side as winner; the caller's symbol decides the outcome only when the board
holds no winning run. -/
theorem C9_detection_overrides (st : DBState) (matchId : Nat) (m : MatchRow) (b : List Char)
    (hm : getMatchById st matchId = some m) (hst : ¬ m.status = "finished") :
    (∀ (ws : Option Char) (M : Char) (h : Nat),
      (detectWinner (normalizeBoard b)).winner = some M →
      (if M = 'X' then some m.creator_id else m.opponent_id) = some h →
      ∃ st', resolveMatchOutcome st matchId (some b) ws =
          .ok (.won (some h) (toFixed2 (m.bet_amount * 2)), st') ∧
        (st'.users h).balance = (st.users h).balance + toFixed2 (m.bet_amount * 2) ∧
        (getMatchById st' matchId).map (fun r => r.status) = some "finished" ∧
        (getMatchById st' matchId).map (fun r => r.winner) =
          some (some (if M = 'X' then "creator" else "opponent"))) ∧
    (∀ (w : Char) (h : Nat),
      (detectWinner (normalizeBoard b)).winner = none →
      (w = 'X' ∨ w = 'O') →
      (if w = 'X' then some m.creator_id else m.opponent_id) = some h →
      ∃ st', resolveMatchOutcome st matchId (some b) (some w) =
          .ok (.won (some h) (toFixed2 (m.bet_amount * 2)), st') ∧
        (getMatchById st' matchId).map (fun r => r.winner) =
          some (some (if w = 'X' then "creator" else "opponent"))) := by
  constructor
  · intro ws M h hdet hwin
    refine ⟨_, resolve_win_shape st matchId m b ws M h hm hst hdet hwin, ?_, ?_, ?_⟩
    · simp [updateMatchRows, insertTx, adjustBalance]
    · rw [getMatchById_updateMatchRows_self _ _ _ (by intro r; rfl)]
      have hframe : getMatchById
          (insertTx (adjustBalance st h (toFixed2 (m.bet_amount * 2)))
            { user_id := some h, amount := toFixed2 (m.bet_amount * 2), type := "credit",
              source := "match_win", reference_id := some (payoutRef matchId),
              status := "completed" }) matchId = getMatchById st matchId := rfl
      rw [hframe, hm]
      rfl
    · rw [getMatchById_updateMatchRows_self _ _ _ (by intro r; rfl)]
      have hframe : getMatchById
          (insertTx (adjustBalance st h (toFixed2 (m.bet_amount * 2)))
            { user_id := some h, amount := toFixed2 (m.bet_amount * 2), type := "credit",
              source := "match_win", reference_id := some (payoutRef matchId),
              status := "completed" }) matchId = getMatchById st matchId := rfl
      rw [hframe, hm]
      rfl
  · intro w h hdet hw hwin
    refine ⟨_, resolve_callerwin_shape st matchId m b w h hm hst hdet hw hwin, ?_⟩
    rw [getMatchById_updateMatchRows_self _ _ _ (by intro r; rfl)]
    have hframe : getMatchById
        (insertTx (adjustBalance st h (toFixed2 (m.bet_amount * 2)))
          { user_id := some h, amount := toFixed2 (m.bet_amount * 2), type := "credit",
            source := "match_win", reference_id := some (payoutRef matchId),
            status := "completed" }) matchId = getMatchById st matchId := rfl
    rw [hframe, hm]
    rfl

/-- Witness for `C9_detection_overrides`: the board holds a run for X while
the caller (as a timeout path would) passes `'O'`; the creator still wins. -/
theorem C9_detection_overrides_witness :
    (getMatchById row2DemoState 1 = some row2MatchRow ∧
      ¬ row2MatchRow.status = "finished" ∧
      (detectWinner (normalizeBoard row2Board)).winner = some 'X') ∧
    ∃ st', resolveMatchOutcome row2DemoState 1 (some row2Board) (some 'O') =
        .ok (.won (some 1) (toFixed2 (row2MatchRow.bet_amount * 2)), st') ∧
      (st'.users 1).balance =
        (row2DemoState.users 1).balance + toFixed2 (row2MatchRow.bet_amount * 2) ∧
      (getMatchById st' 1).map (fun r => r.status) = some "finished" ∧
      (getMatchById st' 1).map (fun r => r.winner) = some (some "creator") := by
  have hm : getMatchById row2DemoState 1 = some row2MatchRow := rfl
  have hst : ¬ row2MatchRow.status = "finished" := by decide
  have hdet : (detectWinner (normalizeBoard row2Board)).winner = some 'X' := by decide
  have h := (C9_detection_overrides row2DemoState 1 row2MatchRow row2Board hm hst).1
    (some 'O') 'X' 1 hdet (by decide)
  exact ⟨⟨hm, hst, hdet⟩, by simpa using h⟩

/-! ## Claim C4: draw settlement refunds -/

/-- A full 6×6 board with no 4-in-a-row run (2×2 colour blocks). -/
def c4Board : List Char :=
  ['X', 'X', 'O', 'O', 'X', 'X',
   'O', 'O', 'X', 'X', 'O', 'O',
   'X', 'X', 'O', 'O', 'X', 'X',
   'O', 'O', 'X', 'X', 'O', 'O',
   'X', 'X', 'O', 'O', 'X', 'X',
   'O', 'O', 'X', 'X', 'O', 'O']

/-- A playing match with stake 100 holding the drawn board `c4Board`. -/
def c4MatchRow : MatchRow :=
  { id := 1, creator_id := 1, opponent_id := some 2, board := c4Board,
    current_turn := 'X', status := "playing", winner := none, bet_amount := 100 }

/-- The creator's bet row after escrow: stake 100, net 90, fee 10. -/
def c4CreatorBet : BetRow :=
  { match_id := 1, user_id := 1, amount := 100, net_amount := 90, fee_amount := 10 }

/-- The opponent's bet row after escrow: stake 100, net 90, fee 10. -/
def c4OpponentBet : BetRow :=
  { match_id := 1, user_id := 2, amount := 100, net_amount := 90, fee_amount := 10 }

/-- The store just before draw settlement: both participants escrowed
110 = 100 stake + 10 fee (balances 890), the platform holds the 20 of fees. -/
def c4DemoState : DBState :=
  { users := fun _ => { balance := 890, is_bot := false }
  , adminBalance := 20
  , matchRows := [c4MatchRow]
  , bets := [c4CreatorBet, c4OpponentBet]
  , moves := [], txLog := [], nextMatchId := 2, nextMoveId := 1 }

/-- Claim C4, counterexample.  Settling the drawn match with stake 100 and
fee 10 credits the creator by 100 — the full stake recorded in
`bets.amount` — and not by the net stake 100 − 10 = 90 the claim demands. -/
theorem C4_counterexample :
    ((resultState (resolveMatchOutcome c4DemoState 1 (some c4Board) none) c4DemoState).users 1).balance
      = (c4DemoState.users 1).balance + 100 ∧
    ¬ ((100 : ℚ) = 100 - 10) := by
  have hm : getMatchById c4DemoState 1 = some c4MatchRow := rfl
  have hst : ¬ c4MatchRow.status = "finished" := by decide
  have hdet : (detectWinner (normalizeBoard c4Board)).winner = none := by decide
  have hopp : c4MatchRow.opponent_id = some 2 := rfl
  have hcb : List.find? (fun bb => decide (bb.user_id = c4MatchRow.creator_id))
      (getBetsByMatch c4DemoState 1) = some c4CreatorBet := rfl
  have hob : List.find? (fun bb => decide (bb.user_id = 2))
      (getBetsByMatch c4DemoState 1) = some c4OpponentBet := rfl
  have h := resolve_draw_shape c4DemoState 1 c4MatchRow c4Board c4CreatorBet c4OpponentBet 2
    hm hst hdet hopp hcb hob
  constructor
  · rw [h]
    simp [resultState, updateMatchRows, insertTx, adjustBalance, c4CreatorBet, c4MatchRow]
  · norm_num

/-- Claim C4 (amended): for every playing match whose board is full with no
4-in-a-row run, settlement (called with no winner symbol, as the move path
does on a draw) refunds each of the two participants exactly the `amount`
recorded on their bet row — the full stake, not the net stake — and never
refunds the fee (the platform balance is unchanged), recording one refund
balance transaction per participant keyed by the match id and the
participant role, and marks the match finished with winner `draw`. -/
theorem C4_draw_refund (st : DBState) (matchId : Nat) (m : MatchRow) (b : List Char)
    (cb ob : BetRow) (oid : Nat)
    (hm : getMatchById st matchId = some m)
    (hstatus : m.status = "playing")
    (hopp : m.opponent_id = some oid)
    (hne : m.creator_id ≠ oid)
    (hcb : List.find? (fun bb => decide (bb.user_id = m.creator_id)) (getBetsByMatch st matchId)
      = some cb)
    (hob : List.find? (fun bb => decide (bb.user_id = oid)) (getBetsByMatch st matchId) = some ob)
    (hcbamt : cb.amount = m.bet_amount) (hobamt : ob.amount = m.bet_amount)
    (hdraw : detectWinner (normalizeBoard b) = { winner := none, isDraw := true }) :
    ∃ st', resolveMatchOutcome st matchId (some b) none = .ok (.drawRefund, st') ∧
      (st'.users m.creator_id).balance = (st.users m.creator_id).balance + m.bet_amount ∧
      (st'.users oid).balance = (st.users oid).balance + m.bet_amount ∧
      st'.adminBalance = st.adminBalance ∧
      st'.txLog = st.txLog ++
        [{ user_id := some m.creator_id, amount := m.bet_amount, type := "credit",
           source := "match_refund", reference_id := some (refundCreatorRef matchId),
           status := "completed" },
         { user_id := some oid, amount := m.bet_amount, type := "credit",
           source := "match_refund", reference_id := some (refundOpponentRef matchId),
           status := "completed" }] ∧
      (getMatchById st' matchId).map (fun r => r.status) = some "finished" ∧
      (getMatchById st' matchId).map (fun r => r.winner) = some (some "draw") := by
  have hst : ¬ m.status = "finished" := by rw [hstatus]; decide
  have hdet : (detectWinner (normalizeBoard b)).winner = none := by rw [hdraw]
  have h := resolve_draw_shape st matchId m b cb ob oid hm hst hdet hopp hcb hob
  refine ⟨_, h, ?_, ?_, ?_, ?_, ?_, ?_⟩
  · simp [updateMatchRows, insertTx, adjustBalance, hne, hcbamt]
  · simp [updateMatchRows, insertTx, adjustBalance, Ne.symm hne, hobamt]
  · simp [updateMatchRows, insertTx, adjustBalance]
  · simp [updateMatchRows, insertTx, adjustBalance, hcbamt, hobamt]
  · rw [getMatchById_updateMatchRows_self _ _ _ (by intro r; rfl)]
    have hm2 : getMatchById
        (insertTx
          (adjustBalance
            (insertTx (adjustBalance st m.creator_id cb.amount)
              { user_id := some m.creator_id, amount := cb.amount, type := "credit",
                source := "match_refund", reference_id := some (refundCreatorRef matchId),
                status := "completed" })
            oid ob.amount)
          { user_id := some oid, amount := ob.amount, type := "credit",
            source := "match_refund", reference_id := some (refundOpponentRef matchId),
            status := "completed" }) matchId = some m := hm
    rw [hm2]
    rfl
  · rw [getMatchById_updateMatchRows_self _ _ _ (by intro r; rfl)]
    have hm2 : getMatchById
        (insertTx
          (adjustBalance
            (insertTx (adjustBalance st m.creator_id cb.amount)
              { user_id := some m.creator_id, amount := cb.amount, type := "credit",
                source := "match_refund", reference_id := some (refundCreatorRef matchId),
                status := "completed" })
            oid ob.amount)
          { user_id := some oid, amount := ob.amount, type := "credit",
            source := "match_refund", reference_id := some (refundOpponentRef matchId),
            status := "completed" }) matchId = some m := hm
    rw [hm2]
    rfl

/-- Witness for `C4_draw_refund` at the concrete drawn match. -/
theorem C4_draw_refund_witness :
    (getMatchById c4DemoState 1 = some c4MatchRow ∧
      c4MatchRow.status = "playing" ∧
      c4CreatorBet.amount = c4MatchRow.bet_amount ∧
      detectWinner (normalizeBoard c4Board) = { winner := none, isDraw := true }) ∧
    ∃ st', resolveMatchOutcome c4DemoState 1 (some c4Board) none = .ok (.drawRefund, st') ∧
      (st'.users 1).balance = (c4DemoState.users 1).balance + c4MatchRow.bet_amount ∧
      st'.adminBalance = c4DemoState.adminBalance ∧
      (getMatchById st' 1).map (fun r => r.winner) = some (some "draw") := by
  have hm : getMatchById c4DemoState 1 = some c4MatchRow := rfl
  have hstatus : c4MatchRow.status = "playing" := rfl
  have hcbamt : c4CreatorBet.amount = c4MatchRow.bet_amount := by norm_num [c4CreatorBet, c4MatchRow]
  have hobamt : c4OpponentBet.amount = c4MatchRow.bet_amount := by norm_num [c4OpponentBet, c4MatchRow]
  have hdraw : detectWinner (normalizeBoard c4Board) = { winner := none, isDraw := true } := by decide
  have h := C4_draw_refund c4DemoState 1 c4MatchRow c4Board c4CreatorBet c4OpponentBet 2
    hm hstatus rfl (by decide) rfl rfl hcbamt hobamt hdraw
  obtain ⟨st', h1, h2, h3, h4, h5, h6, h7⟩ := h
  exact ⟨⟨hm, hstatus, hcbamt, hdraw⟩, st', h1, h2, h4, h7⟩

/-! ## Claim C3: the stake-100 / fee-10 scenario -/

/-- The externally computed charge for the scenario: a flat fee of 10. -/
def c3Charge : ℚ → ℚ := fun _ => 10

/-- Fresh store: every user holds 1000, no matches. -/
def c3Base : DBState :=
  { users := fun _ => { balance := 1000, is_bot := false }
  , adminBalance := 0
  , matchRows := [], bets := [], moves := [], txLog := []
  , nextMatchId := 1, nextMoveId := 1 }

/-- Post-state of a matchmaking call (an error is a rollback). -/
def cmState (e : Except String (CreateMatchResult × DBState)) (dflt : DBState) : DBState :=
  match e with
  | .ok p => p.2
  | .error _ => dflt

/-- Result reported by a matchmaking call. -/
def cmResult (e : Except String (CreateMatchResult × DBState)) : Option CreateMatchResult :=
  match e with
  | .ok p => some p.1
  | .error _ => none

/-- Result reported by a settlement call. -/
def rsResult (e : Except String (ResolveResult × DBState)) : Option ResolveResult :=
  match e with
  | .ok p => some p.1
  | .error _ => none

/-- User 1 creates a match with stake 100. -/
def c3AfterCreate : DBState := cmState (createMatch c3Charge c3Base 1 100) c3Base

/-- User 2 joins it. -/
def c3AfterJoin : DBState := cmState (createMatch c3Charge c3AfterCreate 2 100) c3Base

/-- The creator's side (X) wins. -/
def c3XWin : DBState := resultState (resolveMatchOutcome c3AfterJoin 1 none (some 'X')) c3Base

/-- The joiner's side (O) wins. -/
def c3OWin : DBState := resultState (resolveMatchOutcome c3AfterJoin 1 none (some 'O')) c3Base

set_option maxHeartbeats 4000000 in
/-- Claim C3: with stake 100 and fee 10, the creator escrows 110
(1000 → 890) and is quoted fee 10 / total 110; the joiner likewise; after
either side wins, the winner is credited exactly the pot 200
(890 → 1090) and the platform balance is exactly 20 (10 per participant),
regardless of which side wins. -/
theorem C3_stake_fee_scenario :
    cmResult (createMatch c3Charge c3Base 1 100) = some (.waitingCreated 1 10 110) ∧
    (c3AfterCreate.users 1).balance = 890 ∧
    cmResult (createMatch c3Charge c3AfterCreate 2 100) = some (.matched 1 10 110) ∧
    (c3AfterJoin.users 2).balance = 890 ∧
    (c3AfterJoin.users 1).balance = 890 ∧
    c3AfterJoin.adminBalance = 20 ∧
    rsResult (resolveMatchOutcome c3AfterJoin 1 none (some 'X')) = some (.won (some 1) 200) ∧
    (c3XWin.users 1).balance = 1090 ∧
    c3XWin.adminBalance = 20 ∧
    rsResult (resolveMatchOutcome c3AfterJoin 1 none (some 'O')) = some (.won (some 2) 200) ∧
    (c3OWin.users 2).balance = 1090 ∧
    c3OWin.adminBalance = 20 := by
  have e1 : (createFeeRef 1 1 = joinFeeRef 1 2) = False := eq_false (by decide)
  have e2 : (stakeRef 1 1 = joinFeeRef 1 2) = False := eq_false (by decide)
  have hdet : detectWinner (normalizeBoard EMPTY_BOARD) = { winner := none, isDraw := false } := by
    decide
  have s1 : ("playing" = "finished") = False := eq_false (by decide)
  have s2 : ("waiting" = "finished") = False := eq_false (by decide)
  have c1 : ('O' = 'X') = False := eq_false (by decide)
  have c2 : ('X' = 'X') = True := eq_true rfl
  norm_num [c3AfterJoin, c3AfterCreate, c3XWin, c3OWin, cmState, cmResult, rsResult,
    resultState, createMatch, createMatchCreate, createMatchJoin, resolveMatchOutcome, hdet,
    getBetsByMatch, getMatchById,
    selectWaitingCandidate, pickOldest, createMatchRowOp, applyFeeOnce, txExists,
    insertTx, adjustBalance, adjustAdmin, insertBetRow, updateMatchRows,
    toFixed2, jsRound, c3Charge, c3Base, e1, e2, s1, s2, c1, c2,
    userFeeTx, adminFeeTx]

/-! ## Matchmaking selection lemmas -/


theorem pickOldest_eq_none {l : List MatchRow} : pickOldest l = none ↔ l = [] := by
  cases l with
  | nil => simp [pickOldest]
  | cons a t =>
    simp only [pickOldest]
    cases ht : pickOldest t with
    | none => simp
    | some m =>
      by_cases hle : a.id ≤ m.id
      · simp [hle]
      · simp [hle]

theorem pickOldest_mem {l : List MatchRow} {r : MatchRow} (h : pickOldest l = some r) :
    r ∈ l := by
  induction l generalizing r with
  | nil => simp [pickOldest] at h
  | cons a t ih =>
    unfold pickOldest at h
    cases ht : pickOldest t with
    | none =>
      simp only [ht] at h
      simp at h
      simp [h]
    | some m =>
      simp only [ht] at h
      by_cases hle : a.id ≤ m.id
      · rw [if_pos hle] at h
        simp at h
        simp [h]
      · rw [if_neg hle] at h
        simp at h
        subst h
        exact List.mem_cons_of_mem a (ih ht)

theorem pickOldest_min {l : List MatchRow} {r : MatchRow} (h : pickOldest l = some r) :
    ∀ x ∈ l, r.id ≤ x.id := by
  induction l generalizing r with
  | nil => simp [pickOldest] at h
  | cons a t ih =>
    unfold pickOldest at h
    cases ht : pickOldest t with
    | none =>
      simp only [ht] at h
      simp at h
      subst h
      have ht' : t = [] := pickOldest_eq_none.mp ht
      subst ht'
      intro x hx
      rcases List.mem_cons.mp hx with rfl | hx
      · exact le_refl _
      · simp at hx
    | some m =>
      simp only [ht] at h
      by_cases hle : a.id ≤ m.id
      · rw [if_pos hle] at h
        simp at h
        subst h
        intro x hx
        rcases List.mem_cons.mp hx with rfl | hx
        · exact le_refl _
        · exact le_trans hle (ih ht x hx)
      · rw [if_neg hle] at h
        simp at h
        subst h
        intro x hx
        rcases List.mem_cons.mp hx with rfl | hx
        · exact le_of_lt (Nat.lt_of_not_le hle)
        · exact ih ht x hx

theorem getMatchById_of_mem_nodup {st : DBState} {r : MatchRow}
    (hnd : (st.matchRows.map fun x => x.id).Nodup) (hr : r ∈ st.matchRows) :
    getMatchById st r.id = some r := by
  unfold getMatchById
  cases hf : List.find? (fun x => decide (x.id = r.id)) st.matchRows with
  | none =>
    exact absurd (by simp : decide (r.id = r.id) = true)
      ((List.find?_eq_none.mp hf) r hr)
  | some r' =>
    have hmem := List.mem_of_find?_eq_some hf
    have hid : r'.id = r.id := by simpa using List.find?_some hf
    have := List.inj_on_of_nodup_map hnd hmem hr hid
    rw [this]

theorem applyFeeOnce_frame (st : DBState) (ref : String) (uid : Nat) (f : ℚ) :
    ((applyFeeOnce st ref uid f).2).matchRows = st.matchRows ∧
    ((applyFeeOnce st ref uid f).2).bets = st.bets ∧
    ((applyFeeOnce st ref uid f).2).moves = st.moves ∧
    ((applyFeeOnce st ref uid f).2).nextMatchId = st.nextMatchId ∧
    ((applyFeeOnce st ref uid f).2).nextMoveId = st.nextMoveId := by
  unfold applyFeeOnce
  by_cases h1 : toFixed2 f ≤ 0
  · simp [h1]
  · by_cases h2 : txExists st ref "match_fee_collected" = true
    · by_cases h3 : txExists st ref "match_fee" = true
      · simp [h1, h2, h3]
      · simp [h1, h2, h3, insertTx]
    · simp [h1, h2, insertTx, adjustBalance, adjustAdmin]

/-! ## Claim C7: matchmaking pairs with the oldest waiting candidate -/


theorem getMatchById_congr {st1 st2 : DBState} (h : st1.matchRows = st2.matchRows)
    (mid : Nat) : getMatchById st1 mid = getMatchById st2 mid := by
  unfold getMatchById
  rw [h]

theorem ite_applyFee_matchRows (cond : Prop) [Decidable cond] (st : DBState) (ref : String)
    (uid : Nat) (f : ℚ) :
    (if cond then (applyFeeOnce st ref uid f).2 else st).matchRows = st.matchRows := by
  by_cases hc : cond
  · rw [if_pos hc, (applyFeeOnce_frame _ _ _ _).1]
  · rw [if_neg hc]

theorem selectWaitingCandidate_spec {st : DBState} {bet : ℚ} {c : MatchRow}
    (h : selectWaitingCandidate st bet = some c) :
    c ∈ st.matchRows ∧ c.status = "waiting" ∧ c.opponent_id = none ∧ c.bet_amount = bet ∧
    ∀ m' ∈ st.matchRows, m'.status = "waiting" → m'.opponent_id = none →
      m'.bet_amount = bet → c.id ≤ m'.id := by
  unfold selectWaitingCandidate at h
  have hmem := pickOldest_mem h
  have hmin := pickOldest_min h
  rw [List.mem_filter] at hmem
  obtain ⟨hmem, hpred⟩ := hmem
  simp only [Bool.and_eq_true, decide_eq_true_eq] at hpred
  refine ⟨hmem, hpred.1.1, hpred.1.2, hpred.2, ?_⟩
  intro m' hm' hs ho hb
  exact hmin m' (List.mem_filter.mpr (by simp [hm', hs, ho, hb]))

/-- The row inserted for a fresh waiting match. -/
def mkWaitingRow (matchId creatorId : Nat) (bet : ℚ) : MatchRow :=
  { id := matchId, creator_id := creatorId, opponent_id := none, board := EMPTY_BOARD,
    current_turn := 'X', status := "waiting", winner := none, bet_amount := bet }

/-- The row transformer applied when a joiner is attached. -/
def joinUpd (userId : Nat) (r : MatchRow) : MatchRow :=
  { r with opponent_id := some userId, status := "playing", current_turn := 'X' }

theorem createMatchJoin_shape (charge : ℚ → ℚ) (st : DBState) (userId : Nat) (bet : ℚ)
    (c : MatchRow)
    (hbal : ¬ (st.users userId).balance < toFixed2 (bet + toFixed2 (charge bet))) :
    ∃ st', createMatchJoin charge st userId bet c =
        .ok (.matched c.id (toFixed2 (charge bet)) (toFixed2 (bet + toFixed2 (charge bet))), st') ∧
      st'.matchRows = st.matchRows.map (fun r => if r.id = c.id then joinUpd userId r else r) := by
  unfold createMatchJoin
  rw [if_neg hbal]
  refine ⟨_, rfl, ?_⟩
  simp only [insertBetRow, insertTx, updateMatchRows]
  rw [ite_applyFee_matchRows]
  rfl

theorem createMatchCreate_shape (st : DBState) (userId : Nat) (bet fee tdc : ℚ)
    (hbal : ¬ (st.users userId).balance < tdc) :
    ∃ st', createMatchCreate st userId bet fee tdc =
        .ok (.waitingCreated st.nextMatchId fee tdc, st') ∧
      st'.matchRows = (st.matchRows ++ [mkWaitingRow st.nextMatchId userId bet]).map
        (fun r => if r.id = st.nextMatchId then { r with board := EMPTY_BOARD } else r) ∧
      st'.nextMatchId = st.nextMatchId + 1 := by
  unfold createMatchCreate createMatchRowOp
  rw [if_neg hbal]
  refine ⟨_, rfl, ?_, ?_⟩
  · simp only [insertBetRow, insertTx, updateMatchRows]
    rw [ite_applyFee_matchRows]
    rfl
  · simp only [insertBetRow, insertTx, updateMatchRows]
    by_cases hc : 0 < fee
    · rw [if_pos hc]
      rw [(applyFeeOnce_frame _ _ _ _).2.2.2.1]
      rfl
    · rw [if_neg hc]
      rfl

theorem C7_matchmaking (charge : ℚ → ℚ) (st : DBState) (userId : Nat) (bet : ℚ)
    (hWF : WFIds st) (hbet : ¬ bet ≤ 0) :
    (∀ c, selectWaitingCandidate st bet = some c → c.creator_id ≠ userId →
      ¬ (st.users userId).balance < toFixed2 (bet + toFixed2 (charge bet)) →
      c ∈ st.matchRows ∧ c.status = "waiting" ∧ c.opponent_id = none ∧ c.bet_amount = bet ∧
      (∀ m' ∈ st.matchRows, m'.status = "waiting" → m'.opponent_id = none →
        m'.bet_amount = bet → c.id ≤ m'.id) ∧
      ∃ st', createMatch charge st userId bet =
          .ok (.matched c.id (toFixed2 (charge bet)) (toFixed2 (bet + toFixed2 (charge bet))), st') ∧
        (getMatchById st' c.id).map (fun r => (r.status, r.opponent_id)) =
          some ("playing", some userId)) ∧
    ((∀ c, selectWaitingCandidate st bet = some c → c.creator_id = userId) →
      ¬ (st.users userId).balance < toFixed2 (toFixed2 bet + toFixed2 (charge bet)) →
      ∃ st', createMatch charge st userId bet =
          .ok (.waitingCreated st.nextMatchId (toFixed2 (charge bet))
            (toFixed2 (toFixed2 bet + toFixed2 (charge bet))), st') ∧
        (getMatchById st' st.nextMatchId).map
          (fun r => (r.status, r.creator_id, r.opponent_id, r.bet_amount)) =
          some ("waiting", userId, none, bet)) := by
  constructor
  · intro c hc hne hbal
    obtain ⟨hmem, hs, ho, hb, hmin⟩ := selectWaitingCandidate_spec hc
    refine ⟨hmem, hs, ho, hb, hmin, ?_⟩
    have hcm : createMatch charge st userId bet = createMatchJoin charge st userId bet c := by
      unfold createMatch
      rw [if_neg hbet, hc]
      show (if c.creator_id ≠ userId then createMatchJoin charge st userId bet c
        else createMatchCreate st userId bet (toFixed2 (charge bet))
          (toFixed2 (toFixed2 bet + toFixed2 (charge bet)))) = _
      rw [if_pos hne]
    obtain ⟨st', heq, hrows⟩ := createMatchJoin_shape charge st userId bet c hbal
    refine ⟨st', by rw [hcm]; exact heq, ?_⟩
    have hcongr : getMatchById st' c.id =
        getMatchById (updateMatchRows st c.id (joinUpd userId)) c.id :=
      getMatchById_congr (by rw [hrows]; rfl) c.id
    rw [hcongr, getMatchById_updateMatchRows_self _ _ _ (by intro r; rfl)]
    rw [getMatchById_of_mem_nodup hWF.1 hmem]
    simp [joinUpd]
  · intro hall hbal
    have hcm : createMatch charge st userId bet =
        createMatchCreate st userId bet (toFixed2 (charge bet))
          (toFixed2 (toFixed2 bet + toFixed2 (charge bet))) := by
      unfold createMatch
      rw [if_neg hbet]
      cases hsel : selectWaitingCandidate st bet with
      | none => rfl
      | some c =>
        have hceq := hall c hsel
        show (if c.creator_id ≠ userId then createMatchJoin charge st userId bet c
          else createMatchCreate st userId bet (toFixed2 (charge bet))
            (toFixed2 (toFixed2 bet + toFixed2 (charge bet)))) = _
        rw [if_neg (by simp [hceq])]
    obtain ⟨st', heq, hrows, hnext⟩ := createMatchCreate_shape st userId bet
      (toFixed2 (charge bet)) (toFixed2 (toFixed2 bet + toFixed2 (charge bet))) hbal
    refine ⟨st', by rw [hcm]; exact heq, ?_⟩
    unfold getMatchById
    rw [hrows, List.find?_map]
    have hp : ((fun r => decide (r.id = st.nextMatchId)) ∘
        fun r : MatchRow => if r.id = st.nextMatchId then { r with board := EMPTY_BOARD } else r)
        = fun r : MatchRow => decide (r.id = st.nextMatchId) := by
      funext r
      by_cases hr : r.id = st.nextMatchId
      · simp [hr]
      · simp [hr]
    rw [hp, List.find?_append]
    have hnone : List.find? (fun r => decide (r.id = st.nextMatchId)) st.matchRows = none := by
      rw [List.find?_eq_none]
      intro r hr
      simp only [decide_eq_true_eq]
      exact Nat.ne_of_lt (hWF.2 r hr)
    rw [hnone]
    simp [mkWaitingRow]

/-- An older waiting match created by the caller (user 7). -/
def c7Row1 : MatchRow :=
  { id := 1, creator_id := 7, opponent_id := none, board := EMPTY_BOARD,
    current_turn := 'X', status := "waiting", winner := none, bet_amount := 100 }

/-- A younger waiting match with the same stake by another creator (user 8). -/
def c7Row2 : MatchRow :=
  { id := 2, creator_id := 8, opponent_id := none, board := EMPTY_BOARD,
    current_turn := 'X', status := "waiting", winner := none, bet_amount := 100 }

/-- Store holding both waiting matches. -/
def c7State : DBState :=
  { users := fun _ => { balance := 1000, is_bot := false }
  , adminBalance := 0
  , matchRows := [c7Row1, c7Row2]
  , bets := [], moves := [], txLog := []
  , nextMatchId := 3, nextMoveId := 1 }

/-- Store holding only the other creator's waiting match. -/
def c7bState : DBState :=
  { users := fun _ => { balance := 1000, is_bot := false }
  , adminBalance := 0
  , matchRows := [c7Row2]
  , bets := [], moves := [], txLog := []
  , nextMatchId := 3, nextMoveId := 1 }

/-- Claim C7, counterexample.  The store holds a waiting match with the
requested stake whose creator (8) differs from the caller (7) — match id 2 —
but because the waiting query selects the single oldest waiting match before
the different-creator test, and that oldest match (id 1) was created by the
caller, the call creates a new waiting match (id 3) instead of pairing the
caller with match 2, which stays `waiting`. -/
theorem C7_counterexample :
    (c7Row2 ∈ c7State.matchRows ∧ c7Row2.status = "waiting" ∧ c7Row2.opponent_id = none ∧
      c7Row2.bet_amount = 100 ∧ c7Row2.creator_id ≠ 7) ∧
    cmResult (createMatch (fun _ => 10) c7State 7 100) = some (.waitingCreated 3 10 110) ∧
    (getMatchById (cmState (createMatch (fun _ => 10) c7State 7 100) c7State) 2).map
      (fun r => (r.status, r.opponent_id)) = some ("waiting", none) := by
  refine ⟨⟨List.mem_cons_of_mem _ (List.mem_cons_self _ _), rfl, rfl,
    by norm_num [c7Row2], by decide⟩, ?_⟩
  norm_num [cmResult, cmState, createMatch, createMatchCreate, createMatchJoin,
    selectWaitingCandidate, pickOldest, createMatchRowOp, applyFeeOnce, txExists,
    insertTx, adjustBalance, adjustAdmin, insertBetRow, updateMatchRows, getMatchById,
    toFixed2, jsRound, c7State, c7Row1, c7Row2, EMPTY_BOARD, BOARD_CELLS, BOARD_ROWS, BOARD_COLS]

/-- Witness for `C7_matchmaking`: user 7 joins user 8's waiting match. -/
theorem C7_matchmaking_witness :
    (WFIds c7bState ∧ ¬ (100 : ℚ) ≤ 0 ∧
      selectWaitingCandidate c7bState 100 = some c7Row2 ∧ c7Row2.creator_id ≠ 7 ∧
      ¬ (c7bState.users 7).balance < toFixed2 (100 + toFixed2 ((fun _ => (10 : ℚ)) 100))) ∧
    ∃ st', createMatch (fun _ => 10) c7bState 7 100 =
        .ok (.matched c7Row2.id (toFixed2 ((fun _ => (10 : ℚ)) 100))
          (toFixed2 (100 + toFixed2 ((fun _ => (10 : ℚ)) 100))), st') ∧
      (getMatchById st' c7Row2.id).map (fun r => (r.status, r.opponent_id)) =
        some ("playing", some 7) := by
  have hWF : WFIds c7bState := by
    constructor
    · decide
    · intro r hr
      rcases List.mem_cons.mp hr with rfl | hr
      · decide
      · simp at hr
  have hbet : ¬ (100 : ℚ) ≤ 0 := by norm_num
  have hsel : selectWaitingCandidate c7bState 100 = some c7Row2 := by
    norm_num [selectWaitingCandidate, pickOldest, c7bState, c7Row2]
  have hne : c7Row2.creator_id ≠ 7 := by decide
  have hbal : ¬ (c7bState.users 7).balance <
      toFixed2 (100 + toFixed2 ((fun _ => (10 : ℚ)) 100)) := by
    norm_num [c7bState, toFixed2, jsRound]
  have h := ((C7_matchmaking (fun _ => 10) c7bState 7 100 hWF hbet).1
    c7Row2 hsel hne hbal).2.2.2.2.2
  exact ⟨⟨hWF, hbet, hsel, hne, hbal⟩, h⟩

/-! ## Claim C8: bot move chooser (win / block / centre shortlist) -/

theorem find_empty_of_countP_one {b : List Char} {l : List Nat}
    (h : l.countP (fun i => decide (cellAt b i = '_')) = 1) :
    ∃ w, l.find? (fun i => decide (cellAt b i = '_')) = some w ∧ w ∈ l ∧ cellAt b w = '_' := by
  have hpos : 0 < l.countP (fun i => decide (cellAt b i = '_')) := by omega
  rw [List.countP_pos_iff] at hpos
  obtain ⟨x, hx, hpx⟩ := hpos
  have hsome : (l.find? (fun i => decide (cellAt b i = '_'))).isSome := by
    rw [List.find?_isSome]
    exact ⟨x, hx, hpx⟩
  obtain ⟨w, hw⟩ := Option.isSome_iff_exists.mp hsome
  exact ⟨w, hw, List.mem_of_find?_eq_some hw, by simpa using List.find?_some hw⟩

theorem findImmediateWin_some_spec {b : List Char} {sym : Char} {w : Nat}
    (h : findImmediateWin b sym = some w) :
    ∃ l, LineShape l ∧ l.countP (fun i => decide (cellAt b i = sym)) = 3 ∧
      l.countP (fun i => decide (cellAt b i = '_')) = 1 ∧ w ∈ l ∧ cellAt b w = '_' := by
  unfold findImmediateWin at h
  cases hf : LINES.find? (fun l =>
      decide (l.countP (fun i => cellAt b i = sym) = WIN_LENGTH - 1) &&
        decide (l.countP (fun i => cellAt b i = '_') = 1)) with
  | none => simp only [hf] at h; cases h
  | some l =>
    simp only [hf] at h
    have hmem := List.mem_of_find?_eq_some hf
    have hpred := List.find?_some hf
    simp only [Bool.and_eq_true, decide_eq_true_eq] at hpred
    have hshape := lines_shape l hmem
    have h3 : l.countP (fun i => decide (cellAt b i = sym)) = 3 := by
      have := hpred.1
      simpa [WIN_LENGTH] using this
    obtain ⟨w', hw', hwmem, hwcell⟩ := find_empty_of_countP_one hpred.2
    rw [hw'] at h
    cases h
    exact ⟨l, hshape, h3, hpred.2, hwmem, hwcell⟩

theorem findImmediateWin_none_spec {b : List Char} {sym : Char}
    (h : findImmediateWin b sym = none) :
    ¬ ∃ l, LineShape l ∧ l.countP (fun i => decide (cellAt b i = sym)) = 3 ∧
      l.countP (fun i => decide (cellAt b i = '_')) = 1 := by
  rintro ⟨l, hshape, h3, h1⟩
  have hmem : l ∈ LINES := by
    rcases hshape with ⟨r, hr, c, hc, rfl⟩ | ⟨c, hc, r, hr, rfl⟩ |
      ⟨r, hr, c, hc, rfl⟩ | ⟨r, hr, c, hc, rfl⟩
    · exact hLine_mem_LINES r hr c hc
    · exact vLine_mem_LINES c hc r hr
    · exact dLine_mem_LINES r hr c hc
    · exact aLine_mem_LINES r hr c hc
  unfold findImmediateWin at h
  cases hf : LINES.find? (fun l =>
      decide (l.countP (fun i => cellAt b i = sym) = WIN_LENGTH - 1) &&
        decide (l.countP (fun i => cellAt b i = '_') = 1)) with
  | some l0 =>
    simp only [hf] at h
    obtain ⟨w', hw', -, -⟩ := find_empty_of_countP_one (by
      have := List.find?_some hf
      simp only [Bool.and_eq_true, decide_eq_true_eq] at this
      exact this.2)
    rw [hw'] at h
    cases h
  | none =>
    have := (List.find?_eq_none.mp hf) l hmem
    simp only [Bool.and_eq_true, decide_eq_true_eq, not_and] at this
    exact absurd h1 (this (by simpa [WIN_LENGTH] using h3))

theorem countP_lt_of_pairwise {l : List (Nat × ℤ)}
    (hp : l.Pairwise (fun a c => a.2 ≤ c.2)) {k : Nat} {x : Nat × ℤ}
    (hx : l[k]? = some x) :
    l.countP (fun y => decide (y.2 < x.2)) ≤ k := by
  induction l generalizing k with
  | nil => simp at hx
  | cons a t ih =>
    cases k with
    | zero =>
      simp at hx
      subst hx
      rw [List.countP_cons]
      have hall := List.pairwise_cons.mp hp
      have hz : t.countP (fun y => decide (y.2 < a.2)) = 0 := by
        rw [List.countP_eq_zero]
        intro y hy
        simp only [decide_eq_true_eq]
        exact not_lt.mpr (hall.1 y hy)
      simp [hz]
    | succ k' =>
      simp only [List.getElem?_cons_succ] at hx
      have := ih (List.pairwise_cons.mp hp).2 hx
      rw [List.countP_cons]
      by_cases hpa : a.2 < x.2
      · simp [hpa]
        omega
      · simp [hpa]
        omega

theorem mem_availableMoves {b : List Char} {i : Nat} :
    i ∈ availableMoves b ↔ i < b.length ∧ cellAt b i = '_' := by
  unfold availableMoves
  rw [List.mem_filter, List.mem_range]
  simp

/-- Claim C8: the bot's move chooser takes an immediate win when some line
holds exactly 3 bot marks and one empty cell; otherwise blocks an opponent
line of the same shape; otherwise returns an empty cell such that fewer than
6 empty cells lie strictly closer to the board centre.  The random draw of
the shortlist is the parameter `k`. -/
theorem C8_bot_chooser (b : List Char) (botSym : Char) (k : Nat) :
    ((∃ l, LineShape l ∧ l.countP (fun i => decide (cellAt b i = botSym)) = 3 ∧
        l.countP (fun i => decide (cellAt b i = '_')) = 1) →
      ∃ w l, chooseMoveHeuristic b botSym k = some w ∧ LineShape l ∧
        l.countP (fun i => decide (cellAt b i = botSym)) = 3 ∧
        l.countP (fun i => decide (cellAt b i = '_')) = 1 ∧ w ∈ l ∧ cellAt b w = '_') ∧
    ((¬ ∃ l, LineShape l ∧ l.countP (fun i => decide (cellAt b i = botSym)) = 3 ∧
        l.countP (fun i => decide (cellAt b i = '_')) = 1) →
      (∃ l, LineShape l ∧
        l.countP (fun i => decide (cellAt b i = (if botSym = 'X' then 'O' else 'X'))) = 3 ∧
        l.countP (fun i => decide (cellAt b i = '_')) = 1) →
      ∃ w l, chooseMoveHeuristic b botSym k = some w ∧ LineShape l ∧
        l.countP (fun i => decide (cellAt b i = (if botSym = 'X' then 'O' else 'X'))) = 3 ∧
        l.countP (fun i => decide (cellAt b i = '_')) = 1 ∧ w ∈ l ∧ cellAt b w = '_') ∧
    (findImmediateWin b botSym = none →
      findImmediateWin b (if botSym = 'X' then 'O' else 'X') = none →
      availableMoves b ≠ [] →
      ∃ w, chooseMoveHeuristic b botSym k = some w ∧ w < b.length ∧ cellAt b w = '_' ∧
        (availableMoves b).countP (fun j => decide (sqDistKey j < sqDistKey w)) < 6) := by
  refine ⟨?_, ?_, ?_⟩
  · rintro ⟨l, hsh, h3, h1⟩
    cases hwin : findImmediateWin b botSym with
    | none => exact absurd ⟨l, hsh, h3, h1⟩ (findImmediateWin_none_spec hwin)
    | some w =>
      obtain ⟨l0, hsh0, h30, h10, hwm, hwc⟩ := findImmediateWin_some_spec hwin
      refine ⟨w, l0, ?_, hsh0, h30, h10, hwm, hwc⟩
      unfold chooseMoveHeuristic
      simp only [hwin]
  · rintro hno ⟨l, hsh, h3, h1⟩
    cases hwin : findImmediateWin b botSym with
    | some w =>
      exact absurd (findImmediateWin_some_spec hwin) (by
        rintro ⟨l0, hsh0, h30, h10, -, -⟩
        exact hno ⟨l0, hsh0, h30, h10⟩)
    | none =>
      cases hblk : findImmediateWin b (if botSym = 'X' then 'O' else 'X') with
      | none => exact absurd ⟨l, hsh, h3, h1⟩ (findImmediateWin_none_spec hblk)
      | some w =>
        obtain ⟨l0, hsh0, h30, h10, hwm, hwc⟩ := findImmediateWin_some_spec hblk
        refine ⟨w, l0, ?_, hsh0, h30, h10, hwm, hwc⟩
        unfold chooseMoveHeuristic
        simp only [hwin, hblk]
  · intro hwin hblk havail
    have hchoose : chooseMoveHeuristic b botSym k =
        ((((availableMoves b).map (fun i => (i, sqDistKey i))).mergeSort
            (fun x y => x.2 ≤ y.2))[k % (max 1 (min 6
          (((availableMoves b).map (fun i => (i, sqDistKey i))).mergeSort
            (fun x y => x.2 ≤ y.2)).length))]?).map (fun p => p.1) := by
      unfold chooseMoveHeuristic
      simp only [hwin, hblk]
      cases hs : ((availableMoves b).map (fun i => (i, sqDistKey i))).mergeSort
          (fun x y => x.2 ≤ y.2) with
      | nil => rfl
      | cons a t => rfl
    have hperm := List.mergeSort_perm ((availableMoves b).map (fun i => (i, sqDistKey i)))
      (fun x y => x.2 ≤ y.2)
    have hlen : (((availableMoves b).map (fun i => (i, sqDistKey i))).mergeSort
        (fun x y => x.2 ≤ y.2)).length = (availableMoves b).length := by
      rw [hperm.length_eq, List.length_map]
    have hlenpos : 0 < (((availableMoves b).map (fun i => (i, sqDistKey i))).mergeSort
        (fun x y => x.2 ≤ y.2)).length := by
      rw [hlen]
      exact List.length_pos.mpr havail
    have htop1 : 0 < max 1 (min 6 (((availableMoves b).map
        (fun i => (i, sqDistKey i))).mergeSort (fun x y => x.2 ≤ y.2)).length) :=
      lt_of_lt_of_le Nat.one_pos (le_max_left _ _)
    have htople : max 1 (min 6 (((availableMoves b).map
        (fun i => (i, sqDistKey i))).mergeSort (fun x y => x.2 ≤ y.2)).length) ≤
        (((availableMoves b).map (fun i => (i, sqDistKey i))).mergeSort
          (fun x y => x.2 ≤ y.2)).length := by
      apply max_le
      · omega
      · exact min_le_right _ _
    have htop6 : max 1 (min 6 (((availableMoves b).map
        (fun i => (i, sqDistKey i))).mergeSort (fun x y => x.2 ≤ y.2)).length) ≤ 6 := by
      apply max_le
      · omega
      · exact min_le_left _ _
    have hklt : k % (max 1 (min 6 (((availableMoves b).map
        (fun i => (i, sqDistKey i))).mergeSort (fun x y => x.2 ≤ y.2)).length)) <
        (((availableMoves b).map (fun i => (i, sqDistKey i))).mergeSort
          (fun x y => x.2 ≤ y.2)).length :=
      lt_of_lt_of_le (Nat.mod_lt _ htop1) htople
    obtain ⟨x, hx⟩ : ∃ x, (((availableMoves b).map (fun i => (i, sqDistKey i))).mergeSort
        (fun x y => x.2 ≤ y.2))[k % (max 1 (min 6 (((availableMoves b).map
          (fun i => (i, sqDistKey i))).mergeSort (fun x y => x.2 ≤ y.2)).length))]? = some x :=
      ⟨_, List.getElem?_eq_getElem hklt⟩
    have hxmem : x ∈ ((availableMoves b).map (fun i => (i, sqDistKey i))) := by
      rw [← hperm.mem_iff]
      exact List.getElem?_mem hx
    obtain ⟨i, hi, hxi⟩ := List.mem_map.mp hxmem
    have hicell := mem_availableMoves.mp hi
    have hsorted : ((((availableMoves b).map (fun i => (i, sqDistKey i))).mergeSort
        (fun x y => x.2 ≤ y.2))).Pairwise (fun a c : Nat × ℤ => a.2 ≤ c.2) := by
      have := @List.sorted_mergeSort (Nat × ℤ) (fun x y => decide (x.2 ≤ y.2))
        (by intro a b c hab hbc; simp only [decide_eq_true_eq] at *; exact le_trans hab hbc)
        (by intro a b; simp only [Bool.or_eq_true, decide_eq_true_eq]; exact le_total _ _)
        ((availableMoves b).map (fun i => (i, sqDistKey i)))
      exact this.imp (by intro a c h; simpa using h)
    have hcount := countP_lt_of_pairwise hsorted hx
    have hmod := Nat.mod_lt k htop1
    refine ⟨i, ?_, hicell.1, hicell.2, ?_⟩
    · rw [hchoose, hx, ← hxi]
      rfl
    · have h1 : (((availableMoves b).map (fun j => (j, sqDistKey j))).mergeSort
          (fun x y => x.2 ≤ y.2)).countP (fun y => decide (y.2 < x.2)) =
          (availableMoves b).countP (fun j => decide (sqDistKey j < x.2)) := by
        rw [hperm.countP_eq, List.countP_map]
        rfl
      have h2 : x.2 = sqDistKey i := by rw [← hxi]
      rw [h2] at h1 hcount
      omega

/-- Board with three bot marks and one gap on the top row. -/
def c8WinBoard : List Char := ['X','X','X'] ++ List.replicate 33 '_'

/-- Board with three opponent marks and one gap on the top row. -/
def c8BlockBoard : List Char := ['O','O','O'] ++ List.replicate 33 '_'

/-- Witness for `C8_bot_chooser`: a winning line is completed, an opponent
line is blocked, and on the empty board a near-centre cell is chosen. -/
theorem C8_bot_chooser_witness :
    (∃ w l, chooseMoveHeuristic c8WinBoard 'X' 0 = some w ∧ LineShape l ∧
      l.countP (fun i => decide (cellAt c8WinBoard i = 'X')) = 3 ∧
      l.countP (fun i => decide (cellAt c8WinBoard i = '_')) = 1 ∧
      w ∈ l ∧ cellAt c8WinBoard w = '_') ∧
    (∃ w l, chooseMoveHeuristic c8BlockBoard 'X' 0 = some w ∧ LineShape l ∧
      l.countP (fun i => decide (cellAt c8BlockBoard i = 'O')) = 3 ∧
      l.countP (fun i => decide (cellAt c8BlockBoard i = '_')) = 1 ∧
      w ∈ l ∧ cellAt c8BlockBoard w = '_') ∧
    (∃ w, chooseMoveHeuristic EMPTY_BOARD 'X' 0 = some w ∧ w < EMPTY_BOARD.length ∧
      cellAt EMPTY_BOARD w = '_' ∧
      (availableMoves EMPTY_BOARD).countP
        (fun j => decide (sqDistKey j < sqDistKey w)) < 6) := by
  refine ⟨(C8_bot_chooser c8WinBoard 'X' 0).1 ⟨[0,1,2,3], ?_, by decide, by decide⟩,
    (C8_bot_chooser c8BlockBoard 'X' 0).2.1 (findImmediateWin_none_spec (by decide))
      ⟨[0,1,2,3], ?_, by decide, by decide⟩,
    (C8_bot_chooser EMPTY_BOARD 'X' 0).2.2 (by decide) (by decide) (by decide)⟩
  · exact Or.inl ⟨0, by decide, 0, by decide, rfl⟩
  · exact Or.inl ⟨0, by decide, 0, by decide, rfl⟩

/-! ## Finished matches are immutable: step machinery -/

/-- Post-state of a transactional call: a thrown error is a rollback. -/
def exceptState {α : Type} (dflt : DBState) : Except String (α × DBState) → DBState
  | .ok p => p.2
  | .error _ => dflt

theorem getMatchById_updateMatchRows_ne (st : DBState) (mid matchId : Nat)
    (f : MatchRow → MatchRow) (hid : ∀ r, (f r).id = r.id) (hne : mid ≠ matchId) :
    getMatchById (updateMatchRows st mid f) matchId = getMatchById st matchId := by
  unfold getMatchById updateMatchRows
  rw [List.find?_map]
  have hp : ((fun r => decide (r.id = matchId)) ∘ fun r => if r.id = mid then f r else r)
      = fun r => decide (r.id = matchId) := by
    funext r
    by_cases hr : r.id = mid
    · simp [hr, hid]
    · simp [hr]
  rw [hp]
  cases hfind : List.find? (fun r => decide (r.id = matchId)) st.matchRows with
  | none => rfl
  | some r =>
    have hr : r.id = matchId := by simpa using List.find?_some hfind
    have hrm : ¬ r.id = mid := by rw [hr]; exact fun h => hne h.symm
    simp [hrm]

theorem updateMatchRows_map_id (st : DBState) (mid : Nat) (f : MatchRow → MatchRow)
    (hid : ∀ r, (f r).id = r.id) :
    ((updateMatchRows st mid f).matchRows.map fun r => r.id) =
      st.matchRows.map fun r => r.id := by
  simp only [updateMatchRows]
  rw [List.map_map]
  apply List.map_congr_left
  intro r hr
  by_cases h : r.id = mid
  · simp [h, hid]
  · simp [h]

theorem WFIds_congr {st1 st2 : DBState} (hrows : st1.matchRows = st2.matchRows)
    (hnext : st1.nextMatchId = st2.nextMatchId) (h : WFIds st2) : WFIds st1 := by
  unfold WFIds
  rw [hrows, hnext]
  exact h

theorem WFIds_updateMatchRows (st : DBState) (mid : Nat) (f : MatchRow → MatchRow)
    (hid : ∀ r, (f r).id = r.id) (h : WFIds st) : WFIds (updateMatchRows st mid f) := by
  constructor
  · rw [updateMatchRows_map_id st mid f hid]
    exact h.1
  · intro r hr
    obtain ⟨r0, hr0, rfl⟩ := List.mem_map.mp hr
    have hb := h.2 r0 hr0
    by_cases hc : r0.id = mid
    · simp only [if_pos hc, hid]
      exact hc ▸ hb
    · simp only [if_neg hc]
      exact hb

theorem preserve_via_update (st st0 : DBState) (mid matchId : Nat) (m : MatchRow)
    (f : MatchRow → MatchRow) (hid : ∀ r, (f r).id = r.id)
    (hrows : st0.matchRows = st.matchRows) (hnext : st0.nextMatchId = st.nextMatchId)
    (hwf : WFIds st) (hm : getMatchById st matchId = some m) (hne : mid ≠ matchId) :
    getMatchById (updateMatchRows st0 mid f) matchId = some m ∧
    WFIds (updateMatchRows st0 mid f) := by
  constructor
  · rw [getMatchById_updateMatchRows_ne st0 mid matchId f hid hne,
      getMatchById_congr hrows]
    exact hm
  · exact WFIds_updateMatchRows st0 mid f hid (WFIds_congr hrows hnext hwf)

theorem resolve_keeps_rowB (st : DBState) (mid : Nat) (B : List Char) (ws : Option Char)
    (matchId : Nat) (m : MatchRow)
    (hwf : WFIds st) (hm : getMatchById st matchId = some m) (hfin : m.status = "finished") :
    getMatchById (exceptState st (resolveMatchOutcome st mid (some B) ws)) matchId = some m ∧
    WFIds (exceptState st (resolveMatchOutcome st mid (some B) ws)) := by
  unfold resolveMatchOutcome
  cases hg : getMatchById st mid with
  | none => exact ⟨hm, hwf⟩
  | some mr =>
    by_cases hs : mr.status = "finished"
    · simp only [if_pos hs]
      exact ⟨hm, hwf⟩
    · have hne : mid ≠ matchId := by
        intro he
        subst he
        rw [hg] at hm
        cases hm
        exact hs hfin
      simp only [if_neg hs]
      cases hlc : (detectWinner (normalizeBoard B)).winner with
      | some W =>
        simp only [hlc]
        cases hwid : (if W = 'X' then some mr.creator_id else mr.opponent_id) with
        | some wid =>
          simp only [hwid]
          exact preserve_via_update st _ mid matchId m _ (by intro r; rfl) rfl rfl hwf hm hne
        | none =>
          simp only [hwid]
          exact preserve_via_update st st mid matchId m _ (by intro r; rfl) rfl rfl hwf hm hne
      | none =>
        simp only [hlc]
        cases hfw : (if ws = some 'X' || ws = some 'O' then ws else none) with
        | some W =>
          simp only [hfw]
          cases hwid : (if W = 'X' then some mr.creator_id else mr.opponent_id) with
          | some wid =>
            simp only [hwid]
            exact preserve_via_update st _ mid matchId m _ (by intro r; rfl) rfl rfl hwf hm hne
          | none =>
            simp only [hwid]
            exact preserve_via_update st st mid matchId m _ (by intro r; rfl) rfl rfl hwf hm hne
        | none =>
          simp only [hfw]
          cases hcb : List.find? (fun bb => decide (bb.user_id = mr.creator_id))
              (getBetsByMatch st mid) with
          | some cb =>
            simp only [hcb]
            cases hoid : mr.opponent_id with
            | some oid =>
              simp only [hoid]
              cases hob : List.find? (fun bb => decide (bb.user_id = oid))
                  (getBetsByMatch st mid) with
              | some ob =>
                simp only [hob]
                exact preserve_via_update st _ mid matchId m _ (by intro r; rfl) rfl rfl
                  hwf hm hne
              | none =>
                simp only [hob]
                exact preserve_via_update st _ mid matchId m _ (by intro r; rfl) rfl rfl
                  hwf hm hne
            | none =>
              simp only [hoid]
              exact preserve_via_update st _ mid matchId m _ (by intro r; rfl) rfl rfl hwf hm hne
          | none =>
            simp only [hcb]
            cases hoid : mr.opponent_id with
            | some oid =>
              simp only [hoid]
              cases hob : List.find? (fun bb => decide (bb.user_id = oid))
                  (getBetsByMatch st mid) with
              | some ob =>
                simp only [hob]
                exact preserve_via_update st _ mid matchId m _ (by intro r; rfl) rfl rfl
                  hwf hm hne
              | none =>
                simp only [hob]
                exact preserve_via_update st st mid matchId m _ (by intro r; rfl) rfl rfl
                  hwf hm hne
            | none =>
              simp only [hoid]
              exact preserve_via_update st st mid matchId m _ (by intro r; rfl) rfl rfl hwf hm hne

theorem resolve_none_eq_some_board (st : DBState) (mid : Nat) (ws : Option Char)
    (mr : MatchRow) (hg : getMatchById st mid = some mr) :
    resolveMatchOutcome st mid none ws = resolveMatchOutcome st mid (some mr.board) ws := by
  unfold resolveMatchOutcome
  rw [hg]

theorem resolve_keeps_row (st : DBState) (mid : Nat) (bo : Option (List Char))
    (ws : Option Char) (matchId : Nat) (m : MatchRow)
    (hwf : WFIds st) (hm : getMatchById st matchId = some m) (hfin : m.status = "finished") :
    getMatchById (exceptState st (resolveMatchOutcome st mid bo ws)) matchId = some m ∧
    WFIds (exceptState st (resolveMatchOutcome st mid bo ws)) := by
  cases bo with
  | some b => exact resolve_keeps_rowB st mid b ws matchId m hwf hm hfin
  | none =>
    cases hg : getMatchById st mid with
    | none =>
      unfold resolveMatchOutcome
      rw [hg]
      exact ⟨hm, hwf⟩
    | some mr =>
      rw [resolve_none_eq_some_board st mid ws mr hg]
      exact resolve_keeps_rowB st mid mr.board ws matchId m hwf hm hfin


theorem ite_applyFee_next (cond : Prop) [Decidable cond] (st : DBState) (ref : String)
    (uid : Nat) (f : ℚ) :
    (if cond then (applyFeeOnce st ref uid f).2 else st).nextMatchId = st.nextMatchId := by
  by_cases hc : cond
  · rw [if_pos hc, (applyFeeOnce_frame _ _ _ _).2.2.2.1]
  · rw [if_neg hc]

theorem createMatchJoin_next (charge : ℚ → ℚ) (st : DBState) (userId : Nat) (bet : ℚ)
    (c : MatchRow) (res : CreateMatchResult) (st' : DBState)
    (h : createMatchJoin charge st userId bet c = .ok (res, st')) :
    st'.nextMatchId = st.nextMatchId := by
  unfold createMatchJoin at h
  by_cases hbal : (st.users userId).balance < toFixed2 (bet + toFixed2 (charge bet))
  · rw [if_pos hbal] at h
    cases h
  · rw [if_neg hbal] at h
    cases h
    simp only [insertBetRow, insertTx, updateMatchRows]
    rw [ite_applyFee_next]
    rfl

theorem createMatchCreate_keeps (st : DBState) (uid : Nat) (bet fee tdc : ℚ)
    (matchId : Nat) (m : MatchRow)
    (hwf : WFIds st) (hm : getMatchById st matchId = some m) :
    getMatchById (exceptState st (createMatchCreate st uid bet fee tdc)) matchId = some m ∧
    WFIds (exceptState st (createMatchCreate st uid bet fee tdc)) := by
  by_cases hbal : (st.users uid).balance < tdc
  · have he : createMatchCreate st uid bet fee tdc = .error "Insufficient balance" := by
      unfold createMatchCreate
      rw [if_pos hbal]
    rw [he]
    exact ⟨hm, hwf⟩
  · obtain ⟨st', hok, hrows, hnext⟩ := createMatchCreate_shape st uid bet fee tdc hbal
    rw [hok]
    show getMatchById st' matchId = some m ∧ WFIds st'
    have hmap1 : st.matchRows.map
        (fun r => if r.id = st.nextMatchId then { r with board := EMPTY_BOARD } else r)
        = st.matchRows := by
      conv_rhs => rw [show st.matchRows = st.matchRows.map id from (List.map_id _).symm]
      apply List.map_congr_left
      intro r hr
      exact if_neg (Nat.ne_of_lt (hwf.2 r hr))
    have hrows' : st'.matchRows = st.matchRows ++ [mkWaitingRow st.nextMatchId uid bet] := by
      rw [hrows, List.map_append, hmap1]
      simp [mkWaitingRow]
    constructor
    · unfold getMatchById at hm ⊢
      rw [hrows', List.find?_append, hm]
      rfl
    · constructor
      · rw [hrows', List.map_append]
        rw [List.nodup_append]
        refine ⟨hwf.1, by simp, ?_⟩
        intro x hx
        simp only [List.map_cons, List.map_nil, List.mem_singleton]
        obtain ⟨r, hr, rfl⟩ := List.mem_map.mp hx
        intro hy
        simp only [mkWaitingRow] at hy
        exact absurd hy (Nat.ne_of_lt (hwf.2 r hr))
      · intro r hr
        rw [hnext]
        rw [hrows'] at hr
        rcases List.mem_append.mp hr with hr | hr
        · exact Nat.lt_succ_of_lt (hwf.2 r hr)
        · simp only [List.mem_singleton] at hr
          rw [hr]
          exact Nat.lt_succ_self _

theorem createOrJoin_keeps (ch : ℚ → ℚ) (uid : Nat) (bet : ℚ) (matchId : Nat) (m : MatchRow)
    (st : DBState) (hwf : WFIds st) (hm : getMatchById st matchId = some m)
    (hfin : m.status = "finished") :
    getMatchById (exceptState st (createMatch ch st uid bet)) matchId = some m ∧
    WFIds (exceptState st (createMatch ch st uid bet)) := by
  unfold createMatch
  by_cases hb : bet ≤ 0
  · rw [if_pos hb]
    exact ⟨hm, hwf⟩
  · rw [if_neg hb]
    cases hsel : selectWaitingCandidate st bet with
    | none =>
      exact createMatchCreate_keeps st uid bet _ _ matchId m hwf hm
    | some c =>
      by_cases hcr : c.creator_id ≠ uid
      · simp only [if_pos hcr]
        have hc := selectWaitingCandidate_spec hsel
        have hne : c.id ≠ matchId := by
          intro he
          have hgc := getMatchById_of_mem_nodup hwf.1 hc.1
          rw [he, hm] at hgc
          cases hgc
          rw [hfin] at hc
          exact absurd hc.2.1 (by decide)
        by_cases hbal : (st.users uid).balance < toFixed2 (bet + toFixed2 (ch bet))
        · have he : createMatchJoin ch st uid bet c = .error "Insufficient balance to join" := by
            unfold createMatchJoin
            rw [if_pos hbal]
          rw [he]
          exact ⟨hm, hwf⟩
        · obtain ⟨st', hok, hrows⟩ := createMatchJoin_shape ch st uid bet c hbal
          have hnext := createMatchJoin_next ch st uid bet c _ st' hok
          rw [hok]
          show getMatchById st' matchId = some m ∧ WFIds st'
          constructor
          · unfold getMatchById at hm ⊢
            rw [hrows, List.find?_map]
            have hp : ((fun r => decide (r.id = matchId)) ∘
                fun r => if r.id = c.id then joinUpd uid r else r)
                = fun r => decide (r.id = matchId) := by
              funext r
              by_cases hr : r.id = c.id
              · simp [hr, joinUpd]
              · simp [hr]
            rw [hp, hm]
            have hmne : ¬ m.id = c.id := by
              have hid : m.id = matchId := by simpa using List.find?_some hm
              rw [hid]
              exact fun h => hne h.symm
            simp [hmne]
          · constructor
            · rw [hrows, List.map_map]
              have hp : ((fun r => r.id) ∘ fun r => if r.id = c.id then joinUpd uid r else r)
                  = fun r => r.id := by
                funext r
                by_cases hr : r.id = c.id
                · simp [hr, joinUpd]
                · simp [hr]
              rw [hp]
              exact hwf.1
            · intro r hr
              rw [hnext]
              rw [hrows] at hr
              obtain ⟨r0, hr0, rfl⟩ := List.mem_map.mp hr
              have hb0 := hwf.2 r0 hr0
              by_cases hc0 : r0.id = c.id
              · simpa [hc0, joinUpd] using hc0 ▸ hb0
              · simpa [hc0] using hb0
      · simp only [if_neg hcr]
        exact createMatchCreate_keeps st uid bet _ _ matchId m hwf hm


/-- The body of `playMove` after the waiting-upgrade step, with the
(possibly upgraded) store `stU` made explicit. -/
def playMoveTail (stU : DBState) (userId matchId position : Nat) :
    Except String (PlayOutcome × DBState) :=
  match getMatchById stU matchId with
  | none => .error "Match not found"
  | some m =>
    if m.status ≠ "playing" then .error "Match is not in playing state"
    else
      let playerSymbol : Option Char :=
        if userId = m.creator_id then some 'X'
        else if some userId = m.opponent_id then some 'O'
        else none
      match playerSymbol with
      | none => .error "Not a participant in this match"
      | some sym =>
        if m.current_turn ≠ sym then .error "Not your turn"
        else if (stU.moves.any fun mv =>
            decide (mv.match_id = matchId) && decide (mv.position = position)) then
          .error "Position already taken"
        else
          let stM := insertMoveRow stU matchId userId position sym
          let newBoard := (normalizeBoard m.board).set position sym
          let nextTurn := if sym = 'X' then 'O' else 'X'
          let stB := updateMatchRows stM matchId fun r =>
            { r with board := newBoard, current_turn := nextTurn }
          let cb := checkWin4 newBoard
          if cb.winner.isSome || cb.isDraw then
            match resolveMatchOutcomeTx stB matchId (some newBoard) cb.winner with
            | .ok (rr, st') => .ok (.resolved rr, st')
            | .error e => .error e
          else .ok (.moved, stB)

theorem playMove_eq_tail (st : DBState) (uid mid pos : Nat) :
    playMove st uid mid pos =
      (if pos ≥ BOARD_CELLS then .error "Invalid position"
       else match getMatchById st mid with
       | none => .error "Match not found"
       | some m0 =>
         playMoveTail
           (if m0.status = "waiting" && m0.opponent_id.isSome then
             updateMatchRows st mid fun r => { r with status := "playing", current_turn := 'X' }
           else st) uid mid pos) := rfl

theorem playMoveTail_keeps (st stU : DBState) (uid mid pos matchId : Nat) (m : MatchRow)
    (hwf : WFIds st) (hm : getMatchById st matchId = some m) (hfin : m.status = "finished")
    (hUm : getMatchById stU matchId = some m) (hUwf : WFIds stU) :
    getMatchById (exceptState st (playMoveTail stU uid mid pos)) matchId = some m ∧
    WFIds (exceptState st (playMoveTail stU uid mid pos)) := by
  unfold playMoveTail
  cases hg2 : getMatchById stU mid with
  | none => exact ⟨hm, hwf⟩
  | some m1 =>
    by_cases hns : m1.status ≠ "playing"
    · simp only [if_pos hns]
      exact ⟨hm, hwf⟩
    · simp only [if_neg hns]
      have hplay : m1.status = "playing" := not_not.mp hns
      have hne : mid ≠ matchId := by
        intro he
        subst he
        rw [hUm] at hg2
        cases hg2
        rw [hfin] at hplay
        exact absurd hplay (by decide)
      cases hps : (if uid = m1.creator_id then some 'X'
          else if some uid = m1.opponent_id then some 'O' else none) with
      | none =>
        simp only [hps]
        exact ⟨hm, hwf⟩
      | some sym =>
        simp only [hps]
        by_cases hturn : m1.current_turn ≠ sym
        · simp only [if_pos hturn]
          exact ⟨hm, hwf⟩
        · simp only [if_neg hturn]
          by_cases htaken : (stU.moves.any fun mv =>
              decide (mv.match_id = mid) && decide (mv.position = pos)) = true
          · simp only [if_pos htaken]
            exact ⟨hm, hwf⟩
          · simp only [if_neg htaken]
            generalize hB : (normalizeBoard m1.board).set pos sym = B
            generalize hstB : updateMatchRows (insertMoveRow stU mid uid pos sym) mid
              (fun r => { r with board := B, current_turn := if sym = 'X' then 'O' else 'X' })
              = stB
            have hBm : getMatchById stB matchId = some m := by
              rw [← hstB,
                getMatchById_updateMatchRows_ne _ mid matchId _ (by intro r; rfl) hne]
              exact hUm
            have hBwf : WFIds stB := by
              rw [← hstB]
              exact WFIds_updateMatchRows _ mid _ (by intro r; rfl) (WFIds_congr rfl rfl hUwf)
            by_cases hterm : ((checkWin4 B).winner.isSome || (checkWin4 B).isDraw) = true
            · simp only [if_pos hterm]
              unfold resolveMatchOutcomeTx
              have h := resolve_keeps_rowB stB mid B ((checkWin4 B).winner) matchId m
                hBwf hBm hfin
              cases hres : resolveMatchOutcome stB mid (some B) ((checkWin4 B).winner) with
              | ok p =>
                obtain ⟨rr, st2⟩ := p
                simp only [hres]
                rw [hres] at h
                exact h
              | error e =>
                simp only [hres]
                exact ⟨hm, hwf⟩
            · simp only [if_neg hterm]
              exact ⟨hBm, hBwf⟩

theorem playMove_keeps (st : DBState) (uid mid pos matchId : Nat) (m : MatchRow)
    (hwf : WFIds st) (hm : getMatchById st matchId = some m) (hfin : m.status = "finished") :
    getMatchById (exceptState st (playMove st uid mid pos)) matchId = some m ∧
    WFIds (exceptState st (playMove st uid mid pos)) := by
  rw [playMove_eq_tail]
  by_cases hpos : pos ≥ BOARD_CELLS
  · rw [if_pos hpos]
    exact ⟨hm, hwf⟩
  · rw [if_neg hpos]
    cases hg : getMatchById st mid with
    | none => exact ⟨hm, hwf⟩
    | some m0 =>
      by_cases hup : (decide (m0.status = "waiting") && m0.opponent_id.isSome) = true
      · simp only [if_pos hup]
        have hne : mid ≠ matchId := by
          intro he
          subst he
          rw [hg] at hm
          cases hm
          rw [hfin] at hup
          simp at hup
        have hU := preserve_via_update st st mid matchId m
          (fun r => { r with status := "playing", current_turn := 'X' })
          (by intro r; rfl) rfl rfl hwf hm hne
        exact playMoveTail_keeps st _ uid mid pos matchId m hwf hm hfin hU.1 hU.2
      · simp only [if_neg hup]
        exact playMoveTail_keeps st st uid mid pos matchId m hwf hm hfin hm hwf

theorem resolveTx_step_keeps (st : DBState) (mid : Nat) (bo : Option (List Char))
    (ws : Option Char) (matchId : Nat) (m : MatchRow)
    (hwf : WFIds st) (hm : getMatchById st matchId = some m) (hfin : m.status = "finished") :
    getMatchById (match resolveMatchOutcomeTx st mid bo ws with
      | .ok p => p.2 | .error _ => st) matchId = some m ∧
    WFIds (match resolveMatchOutcomeTx st mid bo ws with
      | .ok p => p.2 | .error _ => st) := by
  have h := resolve_keeps_row st mid bo ws matchId m hwf hm hfin
  unfold resolveMatchOutcomeTx
  cases hres : resolveMatchOutcome st mid bo ws with
  | ok p =>
    simp only [hres]
    rw [hres] at h
    exact h
  | error e =>
    simp only [hres]
    exact ⟨hm, hwf⟩

theorem onTurnTimeout_keeps (st : DBState) (mid matchId : Nat) (m : MatchRow)
    (hwf : WFIds st) (hm : getMatchById st matchId = some m) (hfin : m.status = "finished") :
    getMatchById (onTurnTimeout st mid) matchId = some m ∧ WFIds (onTurnTimeout st mid) := by
  unfold onTurnTimeout
  cases hg : getMatchById st mid with
  | none => exact ⟨hm, hwf⟩
  | some mr =>
    by_cases hs : mr.status ≠ "playing"
    · simp only [if_pos hs]
      exact ⟨hm, hwf⟩
    · simp only [if_neg hs]
      exact resolveTx_step_keeps st mid _ _ matchId m hwf hm hfin

theorem onMatchTimeout_keeps (st : DBState) (mid matchId : Nat) (m : MatchRow)
    (hwf : WFIds st) (hm : getMatchById st matchId = some m) (hfin : m.status = "finished") :
    getMatchById (onMatchTimeout st mid) matchId = some m ∧ WFIds (onMatchTimeout st mid) := by
  unfold onMatchTimeout
  cases hg : getMatchById st mid with
  | none => exact ⟨hm, hwf⟩
  | some mr =>
    by_cases hs : mr.status ≠ "playing"
    · simp only [if_pos hs]
      exact ⟨hm, hwf⟩
    · simp only [if_neg hs]
      exact resolveTx_step_keeps st mid _ _ matchId m hwf hm hfin

theorem step_keeps (matchId : Nat) (m : MatchRow) (hfin : m.status = "finished")
    (st : DBState) (op : Op) (hwf : WFIds st) (hm : getMatchById st matchId = some m) :
    getMatchById (applyOp st op) matchId = some m ∧ WFIds (applyOp st op) := by
  cases op with
  | fee ref u amt =>
    have hf := applyFeeOnce_frame st ref u amt
    exact ⟨by rw [show applyOp st (.fee ref u amt) = (applyFeeOnce st ref u amt).2 from rfl,
        getMatchById_congr hf.1]; exact hm,
      WFIds_congr hf.1 hf.2.2.2.1 hwf⟩
  | resolve mid bo ws =>
    have h := resolve_keeps_row st mid bo ws matchId m hwf hm hfin
    cases hres : resolveMatchOutcome st mid bo ws with
    | ok p =>
      have e : applyOp st (.resolve mid bo ws) = p.2 := by
        simp only [applyOp, hres]
      rw [e]
      rw [hres] at h
      exact h
    | error e2 =>
      have e : applyOp st (.resolve mid bo ws) = st := by
        simp only [applyOp, hres]
      rw [e]
      exact ⟨hm, hwf⟩
  | createOrJoin ch u bet =>
    have h := createOrJoin_keeps ch u bet matchId m st hwf hm hfin
    cases hres : createMatch ch st u bet with
    | ok p =>
      have e : applyOp st (.createOrJoin ch u bet) = p.2 := by
        simp only [applyOp, hres]
      rw [e]
      rw [hres] at h
      exact h
    | error e2 =>
      have e : applyOp st (.createOrJoin ch u bet) = st := by
        simp only [applyOp, hres]
      rw [e]
      exact ⟨hm, hwf⟩
  | play u mid p =>
    have h := playMove_keeps st u mid p matchId m hwf hm hfin
    cases hres : playMove st u mid p with
    | ok q =>
      have e : applyOp st (.play u mid p) = q.2 := by
        simp only [applyOp, hres]
      rw [e]
      rw [hres] at h
      exact h
    | error e2 =>
      have e : applyOp st (.play u mid p) = st := by
        simp only [applyOp, hres]
      rw [e]
      exact ⟨hm, hwf⟩
  | turnTimeout mid => exact onTurnTimeout_keeps st mid matchId m hwf hm hfin
  | matchTimeout mid => exact onMatchTimeout_keeps st mid matchId m hwf hm hfin

theorem applyOps_keeps (matchId : Nat) (m : MatchRow) (hfin : m.status = "finished")
    (ops : List Op) (st : DBState) (hwf : WFIds st)
    (hm : getMatchById st matchId = some m) :
    getMatchById (applyOps st ops) matchId = some m ∧ WFIds (applyOps st ops) := by
  induction ops generalizing st with
  | nil => exact ⟨hm, hwf⟩
  | cons op t ih =>
    have h := step_keeps matchId m hfin st op hwf hm
    exact ih (applyOp st op) h.2 h.1


/-! ## Claim C2: a finished match is final -/

/-- A settled match: creator won, pot already paid out. -/
def c2MatchRow : MatchRow :=
  { id := 1, creator_id := 7, opponent_id := some 8, board := row2Board,
    current_turn := 'O', status := "finished", winner := some "creator", bet_amount := 100 }

/-- Store holding only the settled match. -/
def c2DemoState : DBState :=
  { users := fun _ => { balance := 1090, is_bot := false }
  , adminBalance := 20
  , matchRows := [c2MatchRow]
  , bets := [], moves := [], txLog := [], nextMatchId := 2, nextMoveId := 1 }

/-- Claim C2: for every match already in status `finished` (under primary-key
uniqueness of match ids), running settlement again returns the
already-resolved marker with the stored winner and the store unchanged — no
balance mutation, no inserted transaction, no row change — and the match row
survives every sequence of embedded operations (fees, settlements,
matchmaking, moves, timer expiries) untouched: status transitions are
monotonic, `finished` never reverts. -/
theorem C2_finished_final (st : DBState) (matchId : Nat) (m : MatchRow)
    (hwf : WFIds st) (hm : getMatchById st matchId = some m)
    (hfin : m.status = "finished") :
    (∀ bo ws,
      resolveMatchOutcome st matchId bo ws = .ok (.already "finished" m.winner, st) ∧
      resolveMatchOutcomeTx st matchId bo ws = .ok (.already "finished" m.winner, st)) ∧
    (∀ ops, getMatchById (applyOps st ops) matchId = some m) := by
  constructor
  · intro bo ws
    have h := resolve_finished_noop st matchId m bo ws hm hfin
    rw [hfin] at h
    exact ⟨h, h⟩
  · intro ops
    exact (applyOps_keeps matchId m hfin ops st hwf hm).1

/-- Witness for `C2_finished_final`: the settled match survives a settlement
retry and a battery of further operations. -/
theorem C2_finished_final_witness :
    (resolveMatchOutcome c2DemoState 1 (some row2Board) (some 'O') =
      .ok (.already "finished" (some "creator"), c2DemoState)) ∧
    getMatchById (applyOps c2DemoState
      [Op.turnTimeout 1, Op.matchTimeout 1, Op.play 8 1 0,
       Op.resolve 1 (some row2Board) (some 'O'),
       Op.createOrJoin (fun _q => 10) 8 100, Op.fee "extra_ref" 7 5]) 1
      = some c2MatchRow :=
  ⟨((C2_finished_final c2DemoState 1 c2MatchRow ⟨by decide, by decide⟩ rfl rfl).1
      (some row2Board) (some 'O')).1,
   (C2_finished_final c2DemoState 1 c2MatchRow ⟨by decide, by decide⟩ rfl rfl).2
     [Op.turnTimeout 1, Op.matchTimeout 1, Op.play 8 1 0,
      Op.resolve 1 (some row2Board) (some 'O'),
      Op.createOrJoin (fun _q => 10) 8 100, Op.fee "extra_ref" 7 5]⟩

/-! ## Claim C6: turn-timer expiry favours the last mover and ends the match -/

theorem playMove_error_of_finished (st : DBState) (uid matchId pos : Nat) (m : MatchRow)
    (hm : getMatchById st matchId = some m) (hfin : m.status = "finished") :
    ∀ p, playMove st uid matchId pos ≠ .ok p := by
  intro p hp
  rw [playMove_eq_tail] at hp
  by_cases hpos : pos ≥ BOARD_CELLS
  · rw [if_pos hpos] at hp
    cases hp
  · rw [if_neg hpos] at hp
    simp only [hm] at hp
    have hup : (decide (m.status = "waiting") && m.opponent_id.isSome) = false := by
      rw [hfin]
      rw [show decide (("finished" : String) = "waiting") = false from by decide]
      simp
    simp only [hup, Bool.false_eq_true, if_false] at hp
    unfold playMoveTail at hp
    simp only [hm] at hp
    have hns : m.status ≠ "playing" := by
      rw [hfin]
      decide
    simp only [if_pos hns] at hp
    cases hp

/-- Claim C6: when the turn timer fires for a match still `playing` on a
board with no completed run, and at least one move was made, the match is
settled in favour of the side that made the last move: that side's user is
credited the pot `toFixed2 (2 * bet)`, the row finishes with the
corresponding winner label, and afterwards no `playMove` call on this match
is ever accepted, whatever operations run in between. -/
theorem C6_turn_timeout (st : DBState) (matchId : Nat) (m : MatchRow) (s : Char) (h : Nat)
    (hwf : WFIds st)
    (hm : getMatchById st matchId = some m) (hst : m.status = "playing")
    (hs : getLastMoveSymbol st matchId = some s)
    (hsym : s = 'X' ∨ s = 'O')
    (hdet : (detectWinner (normalizeBoard m.board)).winner = none)
    (hwin : (if s = 'X' then some m.creator_id else m.opponent_id) = some h) :
    ∃ st', onTurnTimeout st matchId = st' ∧
      (st'.users h).balance = (st.users h).balance + toFixed2 (m.bet_amount * 2) ∧
      getMatchById st' matchId = some { m with
        status := "finished",
        winner := some (if s = 'X' then "creator" else "opponent"),
        board := normalizeBoard m.board } ∧
      (∀ ops uid pos p, playMove (applyOps st' ops) uid matchId pos ≠ .ok p) := by
  have hnf : ¬ m.status = "finished" := by
    rw [hst]
    decide
  have hshape := resolve_callerwin_shape st matchId m m.board s h hm hnf hdet hsym hwin
  have heq : onTurnTimeout st matchId = updateMatchRows
      (insertTx (adjustBalance st h (toFixed2 (m.bet_amount * 2)))
        { user_id := some h, amount := toFixed2 (m.bet_amount * 2), type := "credit",
          source := "match_win", reference_id := some (payoutRef matchId),
          status := "completed" })
      matchId (fun r =>
        { r with status := "finished",
                 winner := some (if s = 'X' then "creator" else "opponent"),
                 board := normalizeBoard m.board }) := by
    unfold onTurnTimeout
    simp only [hm]
    have hns : ¬ m.status ≠ "playing" := by
      rw [hst]
      simp
    simp only [if_neg hns]
    simp only [hs]
    unfold resolveMatchOutcomeTx
    rw [hshape]
  have hm2 : getMatchById
      (insertTx (adjustBalance st h (toFixed2 (m.bet_amount * 2)))
        { user_id := some h, amount := toFixed2 (m.bet_amount * 2), type := "credit",
          source := "match_win", reference_id := some (payoutRef matchId),
          status := "completed" }) matchId = some m := hm
  have hm' : getMatchById (onTurnTimeout st matchId) matchId = some { m with
    status := "finished",
    winner := some (if s = 'X' then "creator" else "opponent"),
    board := normalizeBoard m.board } := by
    rw [heq, getMatchById_updateMatchRows_self _ _ _ (by intro r; rfl), hm2]
    rfl
  have hwf' : WFIds (onTurnTimeout st matchId) := by
    rw [heq]
    exact WFIds_updateMatchRows _ _ _ (by intro r; rfl) (WFIds_congr rfl rfl hwf)
  refine ⟨onTurnTimeout st matchId, rfl, ?_, hm', ?_⟩
  · rw [heq]
    simp [updateMatchRows, insertTx, adjustBalance]
  · intro ops uid pos p
    have hk := applyOps_keeps matchId ({ m with
      status := "finished",
      winner := some (if s = 'X' then "creator" else "opponent"),
      board := normalizeBoard m.board }) rfl ops (onTurnTimeout st matchId) hwf' hm'
    exact playMove_error_of_finished _ uid matchId pos _ hk.1 rfl p

/-- One X move was played on the board at cell 0. -/
def c6Board : List Char := ['X'] ++ List.replicate 35 '_'

/-- The playing match whose turn timer is about to fire (turn is O). -/
def c6MatchRow : MatchRow :=
  { id := 1, creator_id := 7, opponent_id := some 8, board := c6Board,
    current_turn := 'O', status := "playing", winner := none, bet_amount := 100 }

/-- Store for the timeout scenario: the single recorded move is X's. -/
def c6DemoState : DBState :=
  { users := fun _u => { balance := 890, is_bot := false }
  , adminBalance := 20
  , matchRows := [c6MatchRow]
  , bets := []
  , moves := [{ id := 1, match_id := 1, user_id := 7, position := 0, symbol := 'X' }]
  , txLog := [], nextMatchId := 2, nextMoveId := 2 }

/-- Witness for `C6_turn_timeout`: O times out, the last mover X (the
creator, user 7) wins the pot and the match can never be played again. -/
theorem C6_turn_timeout_witness :
    ∃ st', onTurnTimeout c6DemoState 1 = st' ∧
      (st'.users 7).balance = (c6DemoState.users 7).balance +
        toFixed2 (c6MatchRow.bet_amount * 2) ∧
      getMatchById st' 1 = some { c6MatchRow with
        status := "finished",
        winner := some (if ('X' : Char) = 'X' then "creator" else "opponent"),
        board := normalizeBoard c6MatchRow.board } ∧
      (∀ ops uid pos p, playMove (applyOps st' ops) uid 1 pos ≠ .ok p) :=
  C6_turn_timeout c6DemoState 1 c6MatchRow 'X' 7 ⟨by decide, by decide⟩ rfl rfl rfl
    (Or.inl rfl) (by decide) (by decide)


end Bettime
